import Mathlib

/-!
Verification of the trill agent-orchestration core (Go sources under
`internal/service`, `internal/store`, `internal/types`) against its
natural-language specification.  The Go code is shallowly embedded:
strings stay `String` (Go byte indexing is modelled at the character
level; all directive prefixes are ASCII so the two agree on every input
the claims mention), `time.Time` becomes a `Nat` tick counter (0 is the
zero time), the model driver and the shell executor become explicit
script inputs, and the in-memory store becomes an association list.
-/

/-! ## Go string helpers (strings.TrimSpace, ToUpper, HasPrefix, ...) -/

/-- Whitespace as recognized by Go's `unicode.IsSpace` restricted to the
ASCII range (space, tab, newline, vertical tab, form feed, carriage
return); the replies the claims quantify over are ASCII. -/
def isSpaceGo (c : Char) : Bool :=
  c = ' ' || c = '\t' || c = '\n' || c = Char.ofNat 11 || c = Char.ofNat 12 || c = '\r'

/-- Go `strings.TrimSpace`. -/
def trimGo (s : String) : String :=
  ⟨((s.data.dropWhile isSpaceGo).reverse.dropWhile isSpaceGo).reverse⟩

/-- Go `strings.ToUpper` (ASCII). -/
def toUpperGo (s : String) : String :=
  ⟨s.data.map Char.toUpper⟩

/-- Go `strings.HasPrefix`. -/
def hasPrefixGo (s pre : String) : Bool :=
  pre.data.isPrefixOf s.data

/-- Go slice expression `s[n:]` (character-level model of byte slicing). -/
def dropStr (s : String) (n : Nat) : String :=
  ⟨s.data.drop n⟩

/-- Go `strings.TrimPrefix`. -/
def trimPrefixGo (s pre : String) : String :=
  if hasPrefixGo s pre then dropStr s pre.length else s

def splitLinesAux : List Char → List Char → List String
  | [], acc => [⟨acc.reverse⟩]
  | c :: rest, acc =>
      if c = '\n' then ⟨acc.reverse⟩ :: splitLinesAux rest []
      else splitLinesAux rest (c :: acc)

/-- Go `strings.Split(s, "\n")`. -/
def splitLines (s : String) : List String :=
  splitLinesAux s.data []

/-- Go `strings.Contains(s, ":")`. -/
def containsColon (s : String) : Bool :=
  s.data.contains ':'

/-- Go `strings.SplitN(s, ":", 2)`: the text before the first colon and
the text after it. -/
def splitN2Colon (s : String) : String × String :=
  match s.data.splitOnP (· = ':') with
  | [] => (s, "")
  | first :: rest => (⟨first⟩, ⟨List.intercalate [':'] rest⟩)

/-! ## Data model (internal/types/types.go, fields as used by service.go) -/

/-- `types.Message`. -/
structure Message where
  role : String
  content : String
deriving DecidableEq, Repr

/-- `types.ModelCall`. -/
structure ModelCall where
  prompt : String
  rawOutput : String
  reply : String
  timestamp : Nat
  durationMS : Int
  sessionID : String
deriving DecidableEq, Repr

/-- `types.Step` (the shipped `types.go` predates `PendingInfo` and
`PendingDependency`, which `service.go` reads and writes; they are
string fields like `PendingCommand`). -/
structure Step where
  id : String
  title : String
  status : String
  requiresApproval : Bool
  pendingCommand : String
  pendingInfo : String
  pendingDependency : String
  logs : List String
  startedAt : Nat
  completedAt : Nat
deriving DecidableEq, Repr

/-- `types.Artifact`. -/
structure Artifact where
  id : String
  title : String
  description : String
  content : String
  source : String
  createdAt : Nat
deriving DecidableEq, Repr

/-- `types.Conversation` (field set of the current code: the shipped
`types.go` lacks `AcceptanceCriteria`, which `service.go` reads and
writes alongside the other twelve fields). -/
structure Conversation where
  sessionID : String
  prompt : String
  state : String
  planVersion : Nat
  planText : String
  acceptanceCriteria : List String
  awaitingReason : String
  steps : List Step
  messages : List Message
  modelCalls : List ModelCall
  artifacts : List Artifact
  completedMessage : String
  completedAt : Nat
deriving DecidableEq, Repr

/-- `types.InboxItem` (fields as populated by `ListInbox`). -/
structure InboxItem where
  sessionID : String
  prompt : String
  state : String
  awaitingReason : String
  stepID : String
  stepTitle : String
  pendingCommand : String
  pendingInfo : String
  pendingDependency : String
  completedMessage : String
  completedAt : Nat
deriving DecidableEq, Repr

def StatePlanning : String := "planning"

def StateAwaitingPlanApproval : String := "awaiting_plan_approval"

def StateExecuting : String := "executing"

def StateAwaitingStepApproval : String := "awaiting_step_approval"

def StateAwaitingCommand : String := "awaiting_command"

def StateAwaitingInfo : String := "awaiting_info"

def StateReplanning : String := "replanning"

def StateVerifying : String := "verifying"

def StateBlocked : String := "blocked"

def StateCompleted : String := "completed"

def StateAborted : String := "aborted"

def StepPending : String := "pending"

def StepInProgress : String := "in_progress"

def StepDone : String := "done"

def StepFailed : String := "failed"

def StepBlocked : String := "blocked"

/-- `obs.Event` (fields the service populates; the broker stamps the
timestamp on publish, which the claims never inspect). -/
structure Event where
  type : String
  sessionID : String
  prompt : String
  modelPrompt : String
  planText : String
  stepID : String
  stepTitle : String
  command : String
  rawOutput : String
  reply : String
  note : String
  artifactID : String
deriving DecidableEq, Repr

def emptyEvent : Event :=
  { type := "", sessionID := "", prompt := "", modelPrompt := "", planText := ""
    stepID := "", stepTitle := "", command := "", rawOutput := "", reply := ""
    note := "", artifactID := "" }

def emptyConversation : Conversation :=
  { sessionID := "", prompt := "", state := "", planVersion := 0, planText := ""
    acceptanceCriteria := [], awaitingReason := "", steps := [], messages := []
    modelCalls := [], artifacts := [], completedMessage := "", completedAt := 0 }

/-! ## Store (internal/store/memory.go) -/

/-- The in-memory store: session-id keyed map, modelled as an
association list (map iteration order is unspecified in Go). -/
abbrev MemStore := List (String × Conversation)

def lookupStore : MemStore → String → Option Conversation
  | [], _ => none
  | (k, c) :: rest, id => if k = id then some c else lookupStore rest id

/-- Go map assignment `m.convs[key] = v`. -/
def storePut : MemStore → String → Conversation → MemStore
  | [], k, c => [(k, c)]
  | (k', c') :: rest, k, c =>
      if k' = k then (k, c) :: rest else (k', c') :: storePut rest k c

/-- `cloneConversation` (memory.go lines 58-86).  The Go composite
literal lists only `SessionID, Prompt, State, PlanVersion, PlanText,
AwaitingReason, Steps, Messages, ModelCalls`; the remaining fields of
the struct (`AcceptanceCriteria`, `Artifacts`, `CompletedMessage`,
`CompletedAt`) are therefore zero-valued in the clone. -/
def cloneConversation (c : Conversation) : Conversation :=
  { sessionID := c.sessionID
    prompt := c.prompt
    state := c.state
    planVersion := c.planVersion
    planText := c.planText
    awaitingReason := c.awaitingReason
    steps := c.steps
    messages := c.messages
    modelCalls := c.modelCalls
    acceptanceCriteria := []
    artifacts := []
    completedMessage := ""
    completedAt := 0 }

/-- `MemoryStore.Save`: rejects an empty session id, otherwise stores a
clone under `conv.SessionID`. -/
def storeSave (st : MemStore) (conv : Conversation) : Except String MemStore :=
  if conv.sessionID = "" then .error "conversation missing session id"
  else .ok (storePut st conv.sessionID (cloneConversation conv))

/-- `MemoryStore.Get`: looks up and returns a clone. -/
def storeGet (st : MemStore) (sessionID : String) : Option Conversation :=
  (lookupStore st sessionID).map cloneConversation

/-- `MemoryStore.ListIDs`. -/
def storeListIDs (st : MemStore) : List String :=
  st.map (·.1)

/-! ## Plan parsing (service.go parsePlanAndCriteria, lines 560-602) -/

def mkStep (n : Nat) (title : String) : Step :=
  { id := "step-" ++ toString n
    title := title
    status := StepPending
    requiresApproval := false
    pendingCommand := ""
    pendingInfo := ""
    pendingDependency := ""
    logs := []
    startedAt := 0
    completedAt := 0 }

/-- The `for i, line := range lines` loop body of `parsePlanAndCriteria`:
`i` is the 0-based index of the next line, `steps`/`acceptance`
accumulate, `inAcceptance` is the mode flag.  Note the `i > 10` check
runs only after a plan step has been appended. -/
def planLoop : Nat → List String → List Step → List String → Bool →
    List Step × List String
  | _, [], steps, acceptance, _ => (steps, acceptance)
  | i, line :: rest, steps, acceptance, inAcceptance =>
    let text := trimGo line
    if text = "" then planLoop (i + 1) rest steps acceptance inAcceptance
    else
      let upper := toUpperGo text
      if hasPrefixGo upper "PLAN:" then
        planLoop (i + 1) rest steps acceptance false
      else if hasPrefixGo upper "ACCEPTANCE" || hasPrefixGo upper "ACCEPT:" ||
          hasPrefixGo upper "CRITERIA" then
        let acceptance' :=
          if containsColon text then
            let parts := splitN2Colon text
            if trimGo parts.2 ≠ "" then acceptance ++ [trimGo parts.2] else acceptance
          else acceptance
        planLoop (i + 1) rest steps acceptance' true
      else if inAcceptance then
        planLoop (i + 1) rest steps (acceptance ++ [trimPrefixGo text "- "]) true
      else
        let steps' := steps ++ [mkStep (steps.length + 1) text]
        if i > 10 then (steps', acceptance)
        else planLoop (i + 1) rest steps' acceptance inAcceptance

/-- `parsePlanAndCriteria` (service.go lines 560-602). -/
def parsePlanAndCriteria (plan : String) : List Step × List String :=
  planLoop 0 (splitLines plan) [] [] false

/-! ## Recent-context rendering (service.go summarizeLogs, lines 604-619) -/

def renderLog (title log : String) : String :=
  title ++ ": " ++ log

/-- Inner loop of `summarizeLogs`: walk one step's logs newest-first,
appending `"<title>: <log>"` while fewer than `max` entries collected. -/
def collectStepLogs (title : String) : List String → Nat → List String → List String
  | [], _, entries => entries
  | l :: rest, max, entries =>
    if entries.length < max then
      collectStepLogs title rest max (entries ++ [renderLog title l])
    else entries

/-- Outer loop of `summarizeLogs`: walk the steps newest-first. -/
def collectAllLogs : List Step → Nat → List String → List String
  | [], _, entries => entries
  | s :: rest, max, entries =>
    if entries.length < max then
      collectAllLogs rest max (collectStepLogs s.title s.logs.reverse max entries)
    else entries

/-- `summarizeLogs` (service.go lines 604-619): collect up to `max`
entries newest-first, reverse them (newest-last), join with newlines;
`"None"` when nothing was collected. -/
def summarizeLogs (conv : Conversation) (max : Nat) : String :=
  let entries := collectAllLogs conv.steps.reverse max []
  if entries.length = 0 then "None"
  else String.intercalate "\n" entries.reverse

/-- Every log entry of a conversation, oldest-first, rendered as
`"<step_title>: <log>"` (the specification's reading of the recent
context). -/
def allLogs (conv : Conversation) : List String :=
  conv.steps.flatMap (fun s => s.logs.map (renderLog s.title))

/-! ## Orchestrator state: model-driver script, clock, events, store

The model driver (`codex.Client.Send`) is an external collaborator; a
run of the orchestrator is parameterised by the sequence of replies the
driver will produce.  `ok = false` models a non-nil Go error, with
`errMsg` the error's text.  An exhausted script behaves like a driver
that fails, echoing the caller's session id. -/

structure MReply where
  reply : String
  raw : String
  session : String
  errMsg : String
  dur : Int
  ok : Bool
deriving DecidableEq, Repr

structure St where
  script : List MReply
  clock : Nat
  events : List Event
  store : MemStore
deriving DecidableEq, Repr

/-- One `s.model.Send(ctx, session, prompt)` call: consume the next
scripted reply. -/
def sendModel (st : St) (session : String) : St × MReply :=
  match st.script with
  | [] => (st, { reply := "", raw := "", session := session,
                 errMsg := "no more replies", dur := 0, ok := false })
  | r :: rest => ({ st with script := rest }, r)

/-- One `s.clock()` call (time.Now modelled as an increasing counter). -/
def tick (st : St) : St × Nat :=
  ({ st with clock := st.clock + 1 }, st.clock)

/-- `s.emit(ev)`: publish to the broker (recorded as an append). -/
def emitEv (st : St) (ev : Event) : St :=
  { st with events := st.events ++ [ev] }

/-- `s.store.Save` threaded through the orchestrator state. -/
def stSave (st : St) (conv : Conversation) : Except String St :=
  match storeSave st.store conv with
  | .error e => .error e
  | .ok store' => .ok { st with store := store' }

/-- Save then return the conversation, propagating the save error
(the common `if err := s.store.Save(...); err != nil` tail). -/
def saveRet (st : St) (conv : Conversation) : St × Except String Conversation :=
  match stSave st conv with
  | .error e => (st, .error e)
  | .ok st' => (st', .ok conv)

/-- `_ = s.store.Save(ctx, conv)`: save with the error discarded. -/
def trySave (st : St) (conv : Conversation) : St :=
  match stSave st conv with
  | .error _ => st
  | .ok st' => st'

/-! ## Prompt templates (service.go) -/

def seedPrompt (prompt : String) : String :=
  "You are an execution planner. Given a prompt, produce a concise numbered plan (one step per line) and also list acceptance criteria as `ACCEPT: <criterion>` lines. Keep both lists short and outcome-focused.\nPrompt: " ++ prompt ++ "\nPlan:"

/-- Go `%q` on a string: quote and escape (claims never inspect the
escaped text, only thread it through prompts). -/
def goQuote (s : String) : String :=
  "\"" ++ ⟨s.data.flatMap (fun c =>
      if c = '"' ∨ c = '\\' then ['\\', c] else [c])⟩ ++ "\""

def unblockPrompt (goal stepTitle reason planText : String) : String :=
  "The goal is: " ++ goal ++ "\nStep " ++ goQuote stepTitle ++ " failed with reason: " ++
    reason ++ ". Provide a concise revised plan (numbered steps) and updated acceptance criteria as `ACCEPT:` lines that help unblock and continue the goal. Keep it short.\nPrevious plan and acceptance criteria:\n" ++
    planText ++ "\nNew Plan:"

def execPromptOf (conv : Conversation) (stepTitle ctx : String) : String :=
  "Prompt: " ++ conv.prompt ++ "\nPlan: " ++ conv.planText ++
    "\nAcceptance criteria: " ++ String.intercalate "; " conv.acceptanceCriteria ++
    "\nRecent context:\n" ++ ctx ++ "\nStep: " ++ stepTitle ++
    "\nYou are executing a plan step. Respond with one of:\n- COMMAND: <cmd> (shell command suggestion, do not execute)\n- NEED: <missing info>\n- DEPENDENCY: <what must be installed or prepared>\n- SUCCESS: <result>\n- BLOCKED: <reason>\nKeep it concise and actionable."

def discoveryPromptOf (conv : Conversation) (need kind : String) : String :=
  "Goal: " ++ conv.prompt ++ "\nNeed: " ++ need ++ "\nPlan: " ++ conv.planText ++
    "\nRecent context:\n" ++ summarizeLogs conv 5 ++
    "\nSuggest a single shell command to gather the missing " ++ kind ++
    " or unblock the dependency. Respond strictly as `COMMAND: <cmd>` with no explanation and no execution."

def verifyPromptOf (conv : Conversation) (checklist : String) : String :=
  "Goal: " ++ conv.prompt ++ "\nAcceptance criteria:\n" ++ checklist ++
    "\nRecent execution context:\n" ++ summarizeLogs conv 8 ++
    "\nRespond with PASS: <short reason> if all criteria are met. If any are missing, respond with FAIL: <gaps> and list missing items."

/-! ## Orchestrator operations (service.go) -/

/-- `proposeDiscoveryCommand` (service.go lines 535-558): issue the
auxiliary model call, always build its ledger entry, and extract a
command only from a successful reply whose trimmed text begins
case-insensitively with `COMMAND:` (the command is the raw reply after
the 8-character prefix, trimmed).  The `conv == nil` guard is vacuous
here: the embedding passes conversations by value. -/
def proposeDiscoveryCommand (st : St) (conv : Conversation) (need kind : String) :
    St × String × ModelCall :=
  let prompt := discoveryPromptOf conv need kind
  let p := sendModel st conv.sessionID
  let st := p.1
  let r := p.2
  let q := tick st
  let st := q.1
  let call : ModelCall :=
    { prompt := prompt, rawOutput := r.raw, reply := r.reply,
      timestamp := q.2, durationMS := r.dur, sessionID := r.session }
  if ¬ r.ok then (st, "", call)
  else if ¬ hasPrefixGo (toUpperGo (trimGo r.reply)) "COMMAND:" then (st, "", call)
  else (st, trimGo (dropStr r.reply 8), call)

/-- `resolveBlock` (service.go lines 629-663): one unblock planning
call; on success the plan text, steps and acceptance criteria are
replaced, `plan_version` is incremented and the conversation returns to
`awaiting_plan_approval`. -/
def resolveBlock (st : St) (conv : Conversation) (reason stepTitle : String) :
    St × Except String Conversation :=
  let prompt := unblockPrompt conv.prompt stepTitle reason conv.planText
  let p := sendModel st conv.sessionID
  let st := p.1
  let r := p.2
  if ¬ r.ok then (st, .error r.errMsg)
  else
    let parsed := parsePlanAndCriteria r.reply
    let q := tick st
    let st := q.1
    let call : ModelCall :=
      { prompt := prompt, rawOutput := r.raw, reply := r.reply,
        timestamp := q.2, durationMS := r.dur, sessionID := r.session }
    let conv' : Conversation :=
      { conv with
        sessionID := r.session, planText := r.reply,
        steps := parsed.1, acceptanceCriteria := parsed.2,
        planVersion := conv.planVersion + 1,
        state := StateAwaitingPlanApproval,
        awaitingReason := "Awaiting plan approval after block",
        modelCalls := conv.modelCalls ++ [call] }
    match stSave st conv' with
    | .error e => (st, .error e)
    | .ok st' =>
      (emitEv st' { emptyEvent with
          type := "plan", sessionID := conv'.sessionID,
          prompt := conv'.prompt, modelPrompt := prompt, planText := r.reply,
          rawOutput := r.raw, note := "Block resolution plan" },
        .ok conv')

/-- `completeConversation` (service.go lines 466-488). -/
def completeConversation (st : St) (conv : Conversation) :
    St × Except String Conversation :=
  let conv := { conv with state := StateCompleted, awaitingReason := "" }
  let finalReply :=
    match conv.modelCalls.getLast? with
    | some call => call.reply
    | none => ""
  let finalReply :=
    if finalReply = "" then
      match conv.steps.getLast? with
      | some lastStep =>
        match lastStep.logs.getLast? with
        | some l => l
        | none => ""
      | none => ""
    else finalReply
  let msg := "Plan completed successfully." ++
    (if finalReply ≠ "" then " Last response: " ++ finalReply else "")
  let q := tick st
  let conv := { conv with completedMessage := msg, completedAt := q.2 }
  saveRet q.1 conv

/-- `verifyAcceptance` (service.go lines 490-533). -/
def verifyAcceptance (st : St) (conv : Conversation) :
    St × Except String Conversation :=
  let checklist :=
    if conv.acceptanceCriteria.length > 0 then
      "- " ++ String.intercalate "\n- " conv.acceptanceCriteria
    else "-"
  let prompt := verifyPromptOf conv checklist
  let p := sendModel st conv.sessionID
  let st := p.1
  let r := p.2
  if ¬ r.ok then
    let conv := { conv with
      state := StateBlocked,
      awaitingReason := "Verification failed: " ++ r.errMsg }
    (trySave st conv, .error r.errMsg)
  else
    let conv := { conv with sessionID := r.session }
    let q := tick st
    let st := q.1
    let call : ModelCall :=
      { prompt := prompt, rawOutput := r.raw, reply := r.reply,
        timestamp := q.2, durationMS := r.dur, sessionID := r.session }
    let conv := { conv with modelCalls := conv.modelCalls ++ [call] }
    let upper := toUpperGo (trimGo r.reply)
    if hasPrefixGo upper "PASS" || hasPrefixGo upper "SUCCESS" then
      let q2 := tick st
      let conv := { conv with
        completedMessage := "Acceptance criteria satisfied. " ++ r.reply,
        completedAt := q2.2, state := StateCompleted, awaitingReason := "" }
      saveRet q2.1 conv
    else
      let conv := { conv with
        state := StateReplanning,
        awaitingReason := "Verification failed: " ++ r.reply }
      match stSave st conv with
      | .error e => (st, .error e)
      | .ok st' =>
        match resolveBlock st' conv r.reply "acceptance verification" with
        | (st'', .error e) => (st'', .error e)
        | (st'', .ok conv') => (st'', .ok conv')

/-- After the step loop (service.go lines 455-463): complete directly
when there are no acceptance criteria, otherwise verify. -/
def advancePost (st : St) (conv : Conversation) : St × Except String Conversation :=
  if conv.acceptanceCriteria.length = 0 then completeConversation st conv
  else
    let conv := { conv with
      state := StateVerifying,
      awaitingReason := "Verifying acceptance criteria" }
    match stSave st conv with
    | .error e => (st, .error e)
    | .ok st' => verifyAcceptance st' conv

/-- Outcome of one iteration of the advance loop: halt with the
function's result, or continue with the next step index. -/
inductive StepOut where
  | halt (st : St) (res : Except String Conversation)
  | next (st : St) (conv : Conversation)

/-- `COMMAND:` branch of the execution-reply dispatch
(service.go lines 354-367). -/
def cmdBranch (st : St) (conv : Conversation) (i : Nat) (stp : Step)
    (stepEvent : Event) (reply : String) : StepOut :=
  let cmdText := trimGo (dropStr reply 8)
  let stp := { stp with pendingCommand := cmdText, status := StepBlocked }
  let conv := { conv with
    steps := conv.steps.set i stp,
    state := StateAwaitingCommand,
    awaitingReason := "Awaiting approval to run: " ++ cmdText }
  let st := emitEv st { stepEvent with
    command := cmdText, note := "COMMAND_REQUEST" }
  let res := saveRet st conv
  .halt res.1 res.2

/-- `NEED:` branch (service.go lines 368-397): one auxiliary discovery
call, recorded unconditionally, then either command gating or
pending-info. -/
def needBranch (st : St) (conv : Conversation) (i : Nat) (stp : Step)
    (stepEvent : Event) (reply : String) : StepOut :=
  let info := trimGo (dropStr reply 5)
  let d := proposeDiscoveryCommand st conv info "info"
  let st := d.1
  let cmd := d.2.1
  let conv := { conv with modelCalls := conv.modelCalls ++ [d.2.2] }
  if cmd ≠ "" then
    let stp := { stp with pendingCommand := cmd, status := StepBlocked }
    let conv := { conv with
      steps := conv.steps.set i stp,
      state := StateAwaitingCommand,
      awaitingReason := "Awaiting approval to gather info: " ++ info }
    let st := emitEv st { stepEvent with
      command := cmd, note := "INFO_COMMAND_REQUEST" }
    let res := saveRet st conv
    .halt res.1 res.2
  else
    let stp := { stp with pendingInfo := info, status := StepBlocked }
    let conv := { conv with
      steps := conv.steps.set i stp,
      state := StateAwaitingInfo,
      awaitingReason := "Needs info: " ++ info }
    let st := emitEv st { stepEvent with note := conv.awaitingReason }
    let res := saveRet st conv
    .halt res.1 res.2

/-- `DEPENDENCY:` branch (service.go lines 398-427): same two-stage
logic as `NEED:` with `pending_dependency` as the fallback. -/
def depBranch (st : St) (conv : Conversation) (i : Nat) (stp : Step)
    (stepEvent : Event) (reply : String) : StepOut :=
  let dep := trimGo (dropStr reply 11)
  let d := proposeDiscoveryCommand st conv dep "dependency"
  let st := d.1
  let cmd := d.2.1
  let conv := { conv with modelCalls := conv.modelCalls ++ [d.2.2] }
  if cmd ≠ "" then
    let stp := { stp with pendingCommand := cmd, status := StepBlocked }
    let conv := { conv with
      steps := conv.steps.set i stp,
      state := StateAwaitingCommand,
      awaitingReason := "Awaiting approval to satisfy dependency: " ++ dep }
    let st := emitEv st { stepEvent with
      command := cmd, note := "DEPENDENCY_COMMAND_REQUEST" }
    let res := saveRet st conv
    .halt res.1 res.2
  else
    let stp := { stp with pendingDependency := dep, status := StepBlocked }
    let conv := { conv with
      steps := conv.steps.set i stp,
      state := StateAwaitingInfo,
      awaitingReason := "Dependency required: " ++ dep }
    let st := emitEv st { stepEvent with note := conv.awaitingReason }
    let res := saveRet st conv
    .halt res.1 res.2

/-- `BLOCKED`/`ERROR`/model-failure branch (service.go lines 428-445):
persist the replanning state then run the unblock sub-protocol. -/
def blockedBranch (st : St) (conv : Conversation) (i : Nat) (stp : Step)
    (stepEvent : Event) (r : MReply) : StepOut :=
  let stp := { stp with status := StepBlocked }
  let reason :=
    if ¬ r.ok then "Execution blocked: " ++ r.errMsg
    else "Execution blocked: " ++ r.reply
  let conv := { conv with
    steps := conv.steps.set i stp,
    state := StateReplanning,
    awaitingReason := reason }
  let st := emitEv st { stepEvent with note := reason }
  match stSave st conv with
  | .error e => .halt st (.error e)
  | .ok st' =>
    match resolveBlock st' conv reason stp.title with
    | (st'', .error e) => .halt st'' (.error e)
    | (st'', .ok conv') => .halt st'' (.ok conv')

/-- Fall-through success branch (service.go lines 446-453): step done,
keep walking the plan. -/
def successBranch (st : St) (conv : Conversation) (i : Nat) (stp : Step)
    (stepEvent : Event) : StepOut :=
  let stp := { stp with status := StepDone }
  let conv := { conv with
    steps := conv.steps.set i stp,
    state := StateExecuting,
    awaitingReason := "" }
  let st := emitEv st { stepEvent with note := "SUCCESS" }
  match stSave st conv with
  | .error e => .halt st (.error e)
  | .ok st' => .next st' conv

/-- One non-skipped, non-gated iteration of the `for i := range
conv.Steps` loop (service.go lines 326-453): mark the step in
progress, issue the execution model call, record it, log the reply,
then dispatch on the directive prefix of the trimmed upper-cased
reply. -/
def advanceStep (st : St) (conv : Conversation) (i : Nat) (stp : Step) : StepOut :=
  let q := tick st
  let stp := { stp with status := StepInProgress, startedAt := q.2 }
  let conv := { conv with steps := conv.steps.set i stp }
  let contextLogs := summarizeLogs conv 5
  let execPrompt := execPromptOf conv stp.title contextLogs
  let p := sendModel q.1 conv.sessionID
  let st := p.1
  let r := p.2
  let conv := { conv with sessionID := r.session }
  let q2 := tick st
  let st := q2.1
  let call : ModelCall :=
    { prompt := execPrompt, rawOutput := r.raw, reply := r.reply,
      timestamp := q2.2, durationMS := r.dur, sessionID := r.session }
  let conv := { conv with modelCalls := conv.modelCalls ++ [call] }
  let q3 := tick st
  let st := q3.1
  let stp := { stp with logs := stp.logs ++ [r.reply], completedAt := q3.2 }
  let conv := { conv with steps := conv.steps.set i stp }
  let stepEvent := { emptyEvent with
    type := "step", sessionID := r.session, prompt := conv.prompt,
    modelPrompt := execPrompt, stepID := stp.id, stepTitle := stp.title,
    rawOutput := r.raw, reply := r.reply }
  let upper := toUpperGo (trimGo r.reply)
  if hasPrefixGo upper "COMMAND:" then cmdBranch st conv i stp stepEvent r.reply
  else if hasPrefixGo upper "NEED:" then needBranch st conv i stp stepEvent r.reply
  else if hasPrefixGo upper "DEPENDENCY:" then depBranch st conv i stp stepEvent r.reply
  else if ¬ r.ok || hasPrefixGo upper "BLOCKED" || hasPrefixGo upper "ERROR" then
    blockedBranch st conv i stp stepEvent r
  else successBranch st conv i stp stepEvent

/-- The `for i := range conv.Steps` loop of `advanceExecution`
(service.go lines 312-454).  `i` is the current index and `fuel` the
number of indices left (the range is fixed at loop entry); done steps
are skipped, a `requires_approval` step gates the conversation, and
otherwise the iteration body runs and either halts or continues. -/
def advanceLoop (st : St) (conv : Conversation) (i : Nat) :
    Nat → St × Except String Conversation
  | 0 => advancePost st conv
  | fuel + 1 =>
    match conv.steps.get? i with
    | none => advancePost st conv
    | some stp =>
      if stp.status = StepDone then advanceLoop st conv (i + 1) fuel
      else if stp.requiresApproval then
        saveRet st { conv with
          state := StateAwaitingStepApproval,
          awaitingReason := "Awaiting manual approval for step " ++ stp.title }
      else
        match advanceStep st conv i stp with
        | .halt st' res => (st', res)
        | .next st' conv' => advanceLoop st' conv' (i + 1) fuel

/-- `advanceExecution` (service.go lines 312-464). -/
def advanceExecution (st : St) (conv : Conversation) :
    St × Except String Conversation :=
  advanceLoop st conv 0 conv.steps.length

/-- The `for i := range conv.Steps` search of `ApproveCommand`: index of
the first step whose id matches. -/
def findStepIdx : List Step → String → Nat → Option Nat
  | [], _, _ => none
  | s :: rest, stepID, i =>
      if s.id = stepID then some i else findStepIdx rest stepID (i + 1)

/-- The shell executor's outcome for the approved command: the combined
stdout+stderr text, and the error text when the run failed (non-zero
exit or I/O error). -/
structure ShellRes where
  output : String
  errMsg : Option String
deriving DecidableEq, Repr

/-- `ApproveCommand` (service.go lines 171-233): fetch the conversation,
find the step, require a pending command, run it through the shell,
log and clear the command, record an artifact, then either mark the
conversation blocked (shell failure, returned without error) or mark
the step done and re-enter the advance loop. -/
def approveCommand (st : St) (sessionID stepID : String) (sh : ShellRes) :
    St × Except String Conversation :=
  match storeGet st.store sessionID with
  | none => (st, .error ("conversation " ++ sessionID ++ " not found"))
  | some conv =>
    match findStepIdx conv.steps stepID 0 with
    | none => (st, .error ("step " ++ stepID ++ " not found"))
    | some i =>
      match conv.steps.get? i with
      | none => (st, .error ("step " ++ stepID ++ " not found"))
      | some stp =>
        if stp.pendingCommand = "" then
          (st, .error ("no pending command for step " ++ stepID))
        else
          let pending := stp.pendingCommand
          let output := sh.output
          let stp := { stp with
            logs := stp.logs ++ ["EXEC: " ++ pending, output],
            pendingCommand := "" }
          let conv := { conv with steps := conv.steps.set i stp }
          let q := tick st
          let q2 := tick q.1
          let st := q2.1
          let artifact : Artifact :=
            { id := "artifact-" ++ toString q.2, title := "Command output",
              description := "Output for `" ++ pending ++ "`",
              content := output, source := pending, createdAt := q2.2 }
          let conv := { conv with artifacts := conv.artifacts ++ [artifact] }
          match sh.errMsg with
          | some em =>
            let stp := { stp with status := StepBlocked }
            let conv := { conv with
              steps := conv.steps.set i stp,
              state := StateBlocked,
              awaitingReason := "Command failed: " ++ em }
            let st := trySave st conv
            let st := emitEv st { emptyEvent with
              type := "command", sessionID := conv.sessionID, stepID := stp.id,
              stepTitle := stp.title, command := pending, rawOutput := output,
              note := "ERROR: " ++ em, artifactID := artifact.id }
            (st, .ok conv)
          | none =>
            let q3 := tick st
            let st := q3.1
            let stp := { stp with status := StepDone, completedAt := q3.2 }
            let conv := { conv with
              steps := conv.steps.set i stp,
              state := StateExecuting,
              awaitingReason := "" }
            match stSave st conv with
            | .error e => (st, .error e)
            | .ok st' =>
              let st' := emitEv st' { emptyEvent with
                type := "command", sessionID := conv.sessionID, stepID := stp.id,
                stepTitle := stp.title, command := pending, rawOutput := output,
                note := "SUCCESS", artifactID := artifact.id }
              advanceExecution st' conv

/-- `Send` (service.go lines 113-156): free chat, optionally anchored to
an existing conversation; returns the model-call record. -/
def sendOp (st : St) (sessionID msg0 : String) : St × Except String ModelCall :=
  let msg := trimGo msg0
  if msg = "" then (st, .error "message is required")
  else
    let convE : Except String Conversation :=
      if sessionID ≠ "" then
        match storeGet st.store sessionID with
        | none => .error ("conversation " ++ sessionID ++ " not found")
        | some c => .ok c
      else .ok emptyConversation
    match convE with
    | .error e => (st, .error e)
    | .ok conv =>
      let conv := { conv with
        messages := conv.messages ++ [({ role := "user", content := msg } : Message)] }
      let p := sendModel st conv.sessionID
      let st := p.1
      let r := p.2
      if ¬ r.ok then (st, .error r.errMsg)
      else
        let q := tick st
        let st := q.1
        let call : ModelCall :=
          { prompt := msg, rawOutput := r.raw, reply := r.reply,
            timestamp := q.2, durationMS := r.dur, sessionID := r.session }
        let conv := { conv with
          sessionID := r.session,
          messages := conv.messages ++ [({ role := "assistant", content := r.reply } : Message)],
          modelCalls := conv.modelCalls ++ [call] }
        match stSave st conv with
        | .error e => (st, .error e)
        | .ok st' =>
          (emitEv st' { emptyEvent with
              type := "chat", sessionID := r.session, prompt := msg,
              modelPrompt := msg, reply := r.reply, rawOutput := r.raw },
            .ok call)

/-! ## Inbox projection (service.go ListInbox, lines 252-310) -/

/-- First step holding a non-empty pending command. -/
def firstPendingCommandStep : List Step → Option Step
  | [] => none
  | s :: rest =>
      if s.pendingCommand ≠ "" then some s else firstPendingCommandStep rest

/-- First step holding pending info or a pending dependency. -/
def firstPendingInfoStep : List Step → Option Step
  | [] => none
  | s :: rest =>
      if s.pendingInfo ≠ "" ∨ s.pendingDependency ≠ "" then some s
      else firstPendingInfoStep rest

/-- The loop body of `ListInbox` for one fetched conversation: the
items (zero or one) contributed by that conversation. -/
def inboxItemsOf (conv : Conversation) : List InboxItem :=
  let item : InboxItem :=
    { sessionID := conv.sessionID, state := conv.state,
      awaitingReason := conv.awaitingReason, prompt := conv.prompt,
      completedMessage := conv.completedMessage, completedAt := conv.completedAt,
      stepID := "", stepTitle := "", pendingCommand := "", pendingInfo := "",
      pendingDependency := "" }
  if conv.state = StateAwaitingPlanApproval then [item]
  else if conv.state = StateAwaitingCommand ∨ conv.state = StateBlocked then
    match firstPendingCommandStep conv.steps with
    | some s => [{ item with
        stepID := s.id, stepTitle := s.title, pendingCommand := s.pendingCommand }]
    | none => []
  else if conv.state = StateAwaitingInfo then
    match firstPendingInfoStep conv.steps with
    | some s => [{ item with
        stepID := s.id, stepTitle := s.title, pendingInfo := s.pendingInfo,
        pendingDependency := s.pendingDependency }]
    | none => []
  else if conv.state = StateAwaitingStepApproval then [item]
  else if conv.state = StateReplanning then [item]
  else if conv.state = StateCompleted then
    if conv.completedMessage ≠ "" then [item] else []
  else []

/-- `ListInbox`: walk the stored ids, fetch each conversation (the
store clones on `Get`) and collect its items. -/
def listInbox (st : MemStore) : List InboxItem :=
  st.flatMap (fun e => inboxItemsOf (cloneConversation e.2))

/-! ## Concrete runs used by the counterexample / bug-witness theorems -/

/-- The error message of a failed result, `none` on success (a
decidable view of `Except`). -/
def errOf : Except String Conversation → Option String
  | .error e => some e
  | .ok _ => none

/-- The conversation of a successful result, `none` on failure. -/
def okOf : Except String Conversation → Option Conversation
  | .error _ => none
  | .ok c => some c

/-- A stored conversation populating every field that
`cloneConversation` fails to copy. -/
def c1Demo : Conversation :=
  { sessionID := "s", prompt := "p", state := StateExecuting, planVersion := 3,
    planText := "plan", acceptanceCriteria := ["crit"], awaitingReason := "",
    steps := [mkStep 1 "a"], messages := [{ role := "user", content := "hi" }],
    modelCalls := [],
    artifacts := [{ id := "art-1", title := "t", description := "d",
                    content := "c", source := "cmd", createdAt := 2 }],
    completedMessage := "done message", completedAt := 7 }

/-- `save(c1Demo)` on an empty store followed by `get("s")`. -/
def c1RoundTrip : Option Conversation :=
  match storeSave [] c1Demo with
  | .ok st => storeGet st "s"
  | .error _ => none

/-- A conversation about to be completed (state `executing`, one model
call whose reply is the final response). -/
def c2Base : Conversation :=
  { emptyConversation with
    sessionID := "s", prompt := "goal", state := StateExecuting,
    modelCalls := [{ prompt := "exec", rawOutput := "raw",
                     reply := "SUCCESS: done", timestamp := 2, durationMS := 1,
                     sessionID := "s" }] }

def c2Run : St × Except String Conversation :=
  completeConversation { script := [], clock := 5, events := [], store := [] } c2Base

/-- The in-memory record `completeConversation` builds from `c2Base`:
completed, with a non-empty message and the clock value as timestamp. -/
def c2Mem : Conversation :=
  { c2Base with
    state := StateCompleted, awaitingReason := "",
    completedMessage := "Plan completed successfully. Last response: SUCCESS: done",
    completedAt := 5 }

/-- What a subsequent store read of the completed conversation returns. -/
def c2Read : Option Conversation := storeGet c2Run.1.store "s"

/-- Twelve plan lines, none blank, none a header. -/
def c3Input : String := "a\nb\nc\nd\ne\nf\ng\nh\ni\nj\nk\nl"

/-- A stored conversation in state `blocked` with no step holding a
pending command (exactly what the shell-failure path of
`ApproveCommand` produces, since it clears `PendingCommand` before
blocking). -/
def c4Demo : Conversation :=
  { emptyConversation with
    sessionID := "s4", state := StateBlocked,
    awaitingReason := "Command failed: exit status 1",
    steps := [{ mkStep 1 "a" with status := StepBlocked }] }

/-- A two-step conversation whose first step awaits command approval. -/
def c9Conv : Conversation :=
  { emptyConversation with
    sessionID := "t9", state := StateAwaitingCommand,
    awaitingReason := "Awaiting approval to run: ls",
    steps := [{ mkStep 1 "a" with pendingCommand := "ls", status := StepBlocked },
              mkStep 2 "b"] }

/-- Orchestrator state holding `c9Conv` with an exhausted model script:
after the approved command succeeds, the advance loop's next model call
fails, and the unblock call fails too. -/
def c9St : St :=
  { script := [], clock := 1, events := [], store := [("t9", cloneConversation c9Conv)] }

def c9Fetched : Conversation := cloneConversation (cloneConversation c9Conv)

/-- An execution reply `NEED: ...` followed by an auxiliary reply that
is exactly `COMMAND:` — it begins with `COMMAND:` but carries an empty
payload. -/
def c5St : St :=
  { script := [{ reply := "NEED: Which repo path?", raw := "r1", session := "sess-1",
                 errMsg := "", dur := 10, ok := true },
               { reply := "COMMAND:", raw := "r2", session := "sess-1",
                 errMsg := "", dur := 10, ok := true }],
    clock := 1, events := [], store := [] }

def c5Conv : Conversation :=
  { emptyConversation with
    sessionID := "sess-1", prompt := "Gather info", state := StateExecuting,
    planVersion := 1, planText := "1) need repo path",
    steps := [mkStep 1 "1) need repo path"] }

def c5Run : St × Except String Conversation := advanceExecution c5St c5Conv

/-! ## Claim theorems: the store bugs (C1, C2) and counterexamples -/

/-- C1: the store round-trip is NOT field-for-field preserving.
`save(c1Demo)` followed by `get("s")` succeeds, but the returned record
has lost `acceptance_criteria` (`["crit"]` became `[]`), `artifacts`
(one entry became none), `completed_message` (`"done message"` became
`""`) and `completed_at` (`7` became `0`): the composite literal in
`cloneConversation` (memory.go lines 75-85) omits those four fields of
the `Conversation` struct, so both the save-side and the get-side copy
zero them.  The other nine fields are preserved, as the second conjunct
shows. -/
theorem c1_store_roundtrip_drops_fields :
    c1RoundTrip ≠ some c1Demo ∧
    c1RoundTrip = some { c1Demo with
      acceptanceCriteria := [], artifacts := [],
      completedMessage := "", completedAt := 0 } := by
  decide

/-- C2: a store read CAN observe `state = completed` with an empty
`completed_message` and a zero `completed_at`.  `completeConversation`
builds the completed record correctly in memory (first three
conjuncts), but `Save` stores it through `cloneConversation`, which
drops `CompletedMessage`/`CompletedAt`; the subsequent `Get` therefore
returns `state = completed` with the message empty and the timestamp
zero, violating the invariant the claim states. -/
theorem c2_completed_read_breaks_invariant :
    okOf c2Run.2 = some c2Mem ∧
    c2Mem.completedMessage ≠ "" ∧ c2Mem.completedAt ≠ 0 ∧
    c2Read = some (cloneConversation c2Mem) ∧
    (cloneConversation c2Mem).state = StateCompleted ∧
    (cloneConversation c2Mem).completedMessage = "" ∧
    (cloneConversation c2Mem).completedAt = 0 := by
  decide

/-- C3 counterexample: twelve non-empty plan lines yield twelve steps,
so `parsePlanAndCriteria` does not cap its output at 11 steps — the
`i > 10` break runs only after the step at line index 11 has already
been appended. -/
theorem c3_counterexample_twelve_steps :
    ¬ ((parsePlanAndCriteria c3Input).1.length ≤ 11) := by
  decide

/-- C4 counterexample: a conversation in the waiting state `blocked`
with no step holding a pending command contributes no inbox item at
all, so `list_inbox` does not emit one item for every conversation in a
waiting state.  (This state is reachable: the shell-failure path of
`ApproveCommand` clears the step's `PendingCommand` and then sets the
conversation `blocked`.) -/
theorem c4_counterexample_blocked_dropped :
    c4Demo.state = StateBlocked ∧ listInbox [("s4", c4Demo)] = [] := by
  decide

/-- C5 counterexample: with an execution reply `NEED: Which repo path?`
and an auxiliary `propose_command` reply that is exactly `COMMAND:`
(which begins with `COMMAND:`), the conversation transitions to
`awaiting_info` with `pending_info` set — not to `awaiting_command` —
because the code additionally requires the trimmed payload after the
prefix to be non-empty. -/
theorem c5_counterexample_empty_payload :
    hasPrefixGo (toUpperGo (trimGo "COMMAND:")) "COMMAND:" = true ∧
    (okOf c5Run.2).map (fun c => c.state) = some StateAwaitingInfo ∧
    (okOf c5Run.2).map (fun c => c.steps.map (fun s => s.pendingInfo)) =
      some ["Which repo path?"] ∧
    (okOf c5Run.2).map (fun c => c.steps.map (fun s => s.pendingCommand)) =
      some [""] := by
  decide

/-- C9 counterexample: all three preconditions of the claim's "iff"
hold (conversation found, step found, non-empty pending command), the
shell run succeeds, and yet `ApproveCommand` returns an error — the
post-execution advance re-enters the model, whose failure propagates
out through the unblock sub-protocol. -/
theorem c9_counterexample_error_after_success :
    storeGet c9St.store "t9" = some c9Fetched ∧
    findStepIdx c9Fetched.steps "step-1" 0 = some 0 ∧
    ((c9Fetched.steps.get? 0).getD (mkStep 0 "")).pendingCommand ≠ "" ∧
    errOf (approveCommand c9St "t9" "step-1" { output := "out", errMsg := none }).2 =
      some "no more replies" := by
  decide

/-! ## C10: send atomicity on model failure -/

/-- C10: if the model call inside `Send` fails, `Send` returns that
error and nothing was persisted or published: the returned state
differs from the input state only in the consumed script entry — in
particular the store and the event list are unchanged (the user
message, the model-call ledger entry and the chat event are all
written only after a successful model call). -/
theorem c10_send_atomic_on_model_failure
    (st : St) (sessionID msg : String) (r : MReply) (rest : List MReply)
    (hmsg : ¬ trimGo msg = "")
    (hconv : sessionID = "" ∨ (storeGet st.store sessionID).isSome = true)
    (hscript : st.script = r :: rest)
    (hfail : r.ok = false) :
    sendOp st sessionID msg = ({ st with script := rest }, .error r.errMsg) := by
  by_cases hs : sessionID = ""
  · subst hs
    simp only [sendOp, if_neg hmsg, ne_eq, not_true_eq_false, if_false,
      reduceIte, sendModel, hscript, hfail, Bool.false_eq_true,
      not_false_eq_true, if_true]
  · rcases hconv with h | h
    · exact absurd h hs
    · rcases Option.isSome_iff_exists.mp h with ⟨c, hc⟩
      simp only [sendOp, if_neg hmsg, ne_eq, hs, not_false_eq_true, if_true,
        reduceIte, hc, sendModel, hscript, hfail, Bool.false_eq_true,
        not_true_eq_false, if_false]

def c10St : St :=
  { script := [{ reply := "", raw := "", session := "", errMsg := "boom",
                 dur := 0, ok := false }],
    clock := 1, events := [], store := [] }

/-- Witness for C10 at a concrete failing model: the chat send returns
the model's error and leaves store and events untouched. -/
theorem c10_send_atomic_witness :
    sendOp c10St "" "hi" = ({ c10St with script := [] }, .error "boom") :=
  c10_send_atomic_on_model_failure c10St "" "hi"
    { reply := "", raw := "", session := "", errMsg := "boom", dur := 0, ok := false }
    [] (by decide) (Or.inl rfl) rfl rfl

/-! ## C7: shell failure in ApproveCommand -/

/-- A string prefix survives appending more text on the right. -/
theorem hasPrefixGo_append_right (p s t : String)
    (h : hasPrefixGo s p = true) : hasPrefixGo (s ++ t) p = true := by
  cases s with
  | mk sd =>
    cases t with
    | mk td =>
      simp only [hasPrefixGo, List.isPrefixOf_iff_prefix] at h ⊢
      exact h.trans (List.prefix_append sd td)

/-- C7: when the shell run of the approved command fails,
`ApproveCommand` marks the step `blocked` (with the `EXEC:` marker and
the combined output appended to its logs and the pending command
cleared), sets the conversation `blocked` with `awaiting_reason`
beginning `"Command failed:"` (in fact equal to `"Command failed: "`
followed by the error text), appends one artifact whose content is the
combined output and whose source is the command, and returns the
conversation record with a nil error. -/
theorem c7_shell_failure_blocks_and_returns_conv
    (st : St) (sessionID stepID : String) (conv : Conversation) (i : Nat)
    (stp : Step) (sh : ShellRes) (em : String)
    (hget : storeGet st.store sessionID = some conv)
    (hfind : findStepIdx conv.steps stepID 0 = some i)
    (hstep : conv.steps.get? i = some stp)
    (hpend : ¬ stp.pendingCommand = "")
    (hsh : sh.errMsg = some em) :
    ∃ st' c', approveCommand st sessionID stepID sh = (st', .ok c') ∧
      c'.state = StateBlocked ∧
      c'.awaitingReason = "Command failed: " ++ em ∧
      hasPrefixGo c'.awaitingReason "Command failed:" = true ∧
      c'.steps.get? i = some { stp with
        status := StepBlocked,
        pendingCommand := "",
        logs := stp.logs ++ ["EXEC: " ++ stp.pendingCommand, sh.output] } ∧
      c'.artifacts.length = conv.artifacts.length + 1 ∧
      c'.artifacts.getLast?.map (fun a => (a.content, a.source)) =
        some (sh.output, stp.pendingCommand) := by
  have hi : i < conv.steps.length := by
    rcases List.get?_eq_some.mp hstep with ⟨hlt, _⟩
    exact hlt
  simp only [approveCommand, hget, hfind, hstep, if_neg hpend, hsh]
  refine ⟨_, _, rfl, rfl, rfl, ?_, ?_, ?_, ?_⟩
  · exact hasPrefixGo_append_right "Command failed:" "Command failed: " em (by decide)
  · simp [List.set_set, List.get?_eq_getElem?, hi]
  · simp
  · simp

def c7Step : Step :=
  { mkStep 1 "a" with pendingCommand := "ls", status := StepBlocked }

def c7Conv : Conversation :=
  { emptyConversation with
    sessionID := "t7", state := StateAwaitingCommand,
    awaitingReason := "Awaiting approval to run: ls", steps := [c7Step] }

def c7St : St :=
  { script := [], clock := 1, events := [], store := [("t7", c7Conv)] }

def c7Sh : ShellRes := { output := "boom", errMsg := some "exit status 1" }

/-- Witness for C7 at a concrete failing shell run. -/
theorem c7_shell_failure_witness :
    ∃ st' c', approveCommand c7St "t7" "step-1" c7Sh = (st', .ok c') ∧
      c'.state = StateBlocked ∧
      c'.awaitingReason = "Command failed: " ++ "exit status 1" ∧
      hasPrefixGo c'.awaitingReason "Command failed:" = true ∧
      c'.steps.get? 0 = some { c7Step with
        status := StepBlocked,
        pendingCommand := "",
        logs := c7Step.logs ++ ["EXEC: " ++ c7Step.pendingCommand, c7Sh.output] } ∧
      c'.artifacts.length = (cloneConversation c7Conv).artifacts.length + 1 ∧
      c'.artifacts.getLast?.map (fun a => (a.content, a.source)) =
        some (c7Sh.output, c7Step.pendingCommand) :=
  c7_shell_failure_blocks_and_returns_conv c7St "t7" "step-1"
    (cloneConversation c7Conv) 0 c7Step c7Sh "exit status 1"
    (by decide) (by decide) (by decide) (by decide) rfl

/-! ## C3: plan-parse step cap -/

/-- Bound on the number of steps `planLoop` can still append when the
next line has index `i` (11 - i regular appends while `i ≤ 10`, plus
the one append that precedes the `i > 10` break). -/
def planBound (i : Nat) : Nat :=
  (if i ≤ 10 then 11 - i else 0) + 1

theorem planBound_le_succ (i : Nat) : planBound (i + 1) ≤ planBound i := by
  simp only [planBound]
  split <;> split <;> omega

theorem planBound_succ_add (i : Nat) (h : ¬ i > 10) :
    planBound (i + 1) + 1 ≤ planBound i := by
  simp only [planBound]
  split <;> split <;> omega

theorem planLoop_length_le :
    ∀ (lines : List String) (i : Nat) (steps : List Step) (acc : List String)
      (b : Bool),
      (planLoop i lines steps acc b).1.length ≤ steps.length + planBound i := by
  intro lines
  induction lines with
  | nil =>
    intro i steps acc b
    simpa [planLoop] using Nat.le_add_right steps.length (planBound i)
  | cons line rest ih =>
    intro i steps acc b
    have hb := planBound_le_succ i
    simp only [planLoop]
    split
    · exact le_trans (ih (i + 1) steps acc b) (by omega)
    · split
      · exact le_trans (ih (i + 1) steps acc false) (by omega)
      · split
        · exact le_trans (ih (i + 1) steps _ true) (by omega)
        · split
          · exact le_trans (ih (i + 1) steps _ true) (by omega)
          · split
            · simp only [List.length_append, List.length_cons, List.length_nil]
              have h1 : 1 ≤ planBound i := by simp [planBound]
              omega
            · rename_i hle
              have h2 := planBound_succ_add i hle
              have h3 := ih (i + 1)
                (steps ++ [mkStep (steps.length + 1) (trimGo line)]) acc b
              simp only [List.length_append, List.length_cons,
                List.length_nil] at h3
              omega

theorem planLoop_dropLast_titles (lines0 : List String) :
    ∀ (lines : List String) (i : Nat) (steps : List Step) (acc : List String)
      (b : Bool),
      lines0.drop i = lines →
      (∀ st ∈ steps, st.title ∈ (lines0.take 11).map trimGo) →
      ∀ st ∈ (planLoop i lines steps acc b).1.dropLast,
        st.title ∈ (lines0.take 11).map trimGo := by
  intro lines
  induction lines with
  | nil =>
    intro i steps acc b _ hP st hst
    exact hP st (List.dropLast_subset _ hst)
  | cons line rest ih =>
    intro i steps acc b hdrop hP
    have hline : lines0.get? i = some line := by
      have h0 : (lines0.drop i).get? 0 = some line := by rw [hdrop]; rfl
      simpa [List.get?_drop] using h0
    have hrest : lines0.drop (i + 1) = rest := by
      have ht : (lines0.drop i).tail = rest := by rw [hdrop]; rfl
      rwa [List.tail_drop] at ht
    simp only [planLoop]
    split
    · exact ih (i + 1) steps acc b hrest hP
    · split
      · exact ih (i + 1) steps acc false hrest hP
      · split
        · exact ih (i + 1) steps _ true hrest hP
        · split
          · exact ih (i + 1) steps _ true hrest hP
          · split
            · intro st hst
              rw [List.dropLast_concat] at hst
              exact hP st hst
            · rename_i hle
              refine ih (i + 1) _ acc b hrest ?_
              intro st hst
              rcases List.mem_append.mp hst with h | h
              · exact hP st h
              · simp only [List.mem_singleton] at h
                subst h
                refine List.mem_map.mpr ⟨line, ?_, rfl⟩
                have hi11 : i < 11 := by omega
                exact List.get?_mem (by rw [List.get?_take hi11]; exact hline)

/-- C3 (amended): `parsePlanAndCriteria` returns at most 12 plan steps
(not 11), and every returned step except possibly the last is taken
from lines 0 through 10 of the raw input (its title is the trimmed text
of one of the first eleven lines); the one extra step arises because
the `i > 10` break runs only after appending the step of the first plan
line with index 11 or greater, which is then the final step. -/
theorem c3_plan_cap_amended (s : String) :
    (parsePlanAndCriteria s).1.length ≤ 12 ∧
    ∀ st ∈ (parsePlanAndCriteria s).1.dropLast,
      st.title ∈ ((splitLines s).take 11).map trimGo := by
  constructor
  · simpa [planBound] using planLoop_length_le (splitLines s) 0 [] [] false
  · exact planLoop_dropLast_titles (splitLines s) (splitLines s) 0 [] [] false
      (by simp) (by simp)

/-- Witness for C3's amended cap on the twelve-line input: it reaches
the bound of 12 and every non-final step comes from the first eleven
lines. -/
theorem c3_plan_cap_witness :
    (parsePlanAndCriteria c3Input).1.length ≤ 12 ∧
    ∀ st ∈ (parsePlanAndCriteria c3Input).1.dropLast,
      st.title ∈ ((splitLines c3Input).take 11).map trimGo :=
  c3_plan_cap_amended c3Input

/-! ## C8: recent-context rendering -/

/-- All log entries of the given steps, newest-first: the order in
which the collection loops of `summarizeLogs` visit them. -/
def flatRev (steps : List Step) : List String :=
  steps.flatMap (fun s => s.logs.reverse.map (renderLog s.title))

theorem collectStepLogs_eq (title : String) :
    ∀ (logs entries : List String) (max : Nat),
      collectStepLogs title logs max entries =
        entries ++ (logs.map (renderLog title)).take (max - entries.length) := by
  intro logs
  induction logs with
  | nil => intro entries max; simp [collectStepLogs]
  | cons l rest ih =>
    intro entries max
    simp only [collectStepLogs]
    split
    · rename_i hlt
      rw [ih]
      simp only [List.length_append, List.length_cons, List.length_nil,
        List.map_cons]
      have h : max - entries.length = (max - (entries.length + 1)) + 1 := by
        omega
      rw [h, List.take_succ_cons]
      simp
    · rename_i hge
      have h : max - entries.length = 0 := by omega
      simp [h]

theorem collectAllLogs_eq :
    ∀ (steps : List Step) (entries : List String) (max : Nat),
      collectAllLogs steps max entries =
        entries ++ (flatRev steps).take (max - entries.length) := by
  intro steps
  induction steps with
  | nil => intro entries max; simp [collectAllLogs, flatRev]
  | cons s rest ih =>
    intro entries max
    simp only [collectAllLogs, flatRev, List.flatMap_cons]
    split
    · rename_i hlt
      rw [collectStepLogs_eq, ih, List.take_append_eq_append_take,
        ← List.append_assoc]
      congr 2
      simp only [List.length_append, List.length_take, List.length_map,
        List.length_reverse]
      omega
    · rename_i hge
      have h : max - entries.length = 0 := by omega
      simp [h]

theorem flatRev_reverse (conv : Conversation) :
    flatRev conv.steps.reverse = (allLogs conv).reverse := by
  simp only [flatRev, allLogs, List.reverse_flatMap]
  refine List.flatMap_congr ?_
  intro s _
  simp [Function.comp, List.map_reverse]

/-- C8: for every conversation and every positive entry budget `n`
(the service passes 5 for execution and discovery prompts and 8 for
verification), `summarizeLogs conv n` is exactly `"None"` when the
conversation has no step-log entries, and otherwise the newline-join of
the most recent `n` entries — each rendered `"<step_title>: <log>"` by
`renderLog` inside `allLogs` — ordered newest-last. -/
theorem c8_summarize_logs_spec (conv : Conversation) (n : Nat) (h : 0 < n) :
    summarizeLogs conv n =
      if allLogs conv = [] then "None"
      else String.intercalate "\n" (((allLogs conv).reverse.take n).reverse) := by
  unfold summarizeLogs
  rw [collectAllLogs_eq, flatRev_reverse]
  simp only [List.nil_append, List.length_nil, Nat.sub_zero]
  by_cases hA : allLogs conv = []
  · simp [hA]
  · have hlen : ¬ ((allLogs conv).reverse.take n).length = 0 := by
      simp only [List.length_take, List.length_reverse]
      have : allLogs conv ≠ [] := hA
      have hpos : 0 < (allLogs conv).length := List.length_pos.mpr this
      omega
    rw [if_neg hlen, if_neg hA]

def c8Conv : Conversation :=
  { emptyConversation with
    sessionID := "s8",
    steps := [{ mkStep 1 "t1" with logs := ["l1", "l2"] },
              { mkStep 2 "t2" with logs := ["l3"] }] }

/-- Witness for C8: with three log entries and budget 2, the two most
recent entries are rendered newest-last. -/
theorem c8_summarize_logs_witness :
    0 < 2 ∧
    summarizeLogs c8Conv 2 =
      if allLogs c8Conv = [] then "None"
      else String.intercalate "\n" (((allLogs c8Conv).reverse.take 2).reverse) :=
  ⟨by decide, c8_summarize_logs_spec c8Conv 2 (by decide)⟩

/-! ## C4: inbox projection -/

theorem firstPendingCommandStep_isSome_iff (steps : List Step) :
    (firstPendingCommandStep steps).isSome = true ↔
      ∃ s ∈ steps, s.pendingCommand ≠ "" := by
  induction steps with
  | nil => simp [firstPendingCommandStep]
  | cons s rest ih =>
    simp only [firstPendingCommandStep]
    split
    · rename_i h
      simp only [Option.isSome_some, true_iff]
      exact ⟨s, List.mem_cons_self s rest, h⟩
    · rename_i h
      rw [ih]
      constructor
      · rintro ⟨t, ht, hp⟩
        exact ⟨t, List.mem_cons_of_mem s ht, hp⟩
      · rintro ⟨t, ht, hp⟩
        rcases List.mem_cons.mp ht with rfl | ht'
        · exact absurd hp h
        · exact ⟨t, ht', hp⟩

theorem firstPendingInfoStep_isSome_iff (steps : List Step) :
    (firstPendingInfoStep steps).isSome = true ↔
      ∃ s ∈ steps, s.pendingInfo ≠ "" ∨ s.pendingDependency ≠ "" := by
  induction steps with
  | nil => simp [firstPendingInfoStep]
  | cons s rest ih =>
    simp only [firstPendingInfoStep]
    split
    · rename_i h
      simp only [Option.isSome_some, true_iff]
      exact ⟨s, List.mem_cons_self s rest, h⟩
    · rename_i h
      rw [ih]
      constructor
      · rintro ⟨t, ht, hp⟩
        exact ⟨t, List.mem_cons_of_mem s ht, hp⟩
      · rintro ⟨t, ht, hp⟩
        rcases List.mem_cons.mp ht with rfl | ht'
        · exact absurd hp h
        · exact ⟨t, ht', hp⟩

theorem inboxItemsOf_length_le (v : Conversation) :
    (inboxItemsOf v).length ≤ 1 := by
  simp only [inboxItemsOf]
  split_ifs <;>
    first
    | simp
    | (cases firstPendingCommandStep v.steps <;> simp)
    | (cases firstPendingInfoStep v.steps <;> simp)

theorem inboxItemsOf_base (v : Conversation) :
    ∀ it ∈ inboxItemsOf v,
      it.sessionID = v.sessionID ∧ it.state = v.state ∧
      it.awaitingReason = v.awaitingReason := by
  intro it hit
  simp only [inboxItemsOf] at hit
  split_ifs at hit <;>
    first
    | (simp only [List.mem_singleton] at hit; subst hit; exact ⟨rfl, rfl, rfl⟩)
    | simp at hit
    | (rcases hm : firstPendingCommandStep v.steps with _ | s <;> rw [hm] at hit <;>
        simp only [List.mem_singleton, List.not_mem_nil] at hit <;>
        first
        | exact absurd hit (fun h => h)
        | (subst hit; exact ⟨rfl, rfl, rfl⟩))
    | (rcases hm : firstPendingInfoStep v.steps with _ | s <;> rw [hm] at hit <;>
        simp only [List.mem_singleton, List.not_mem_nil] at hit <;>
        first
        | exact absurd hit (fun h => h)
        | (subst hit; exact ⟨rfl, rfl, rfl⟩))

theorem inboxItemsOf_direct (v : Conversation)
    (h : v.state = StateAwaitingPlanApproval ∨ v.state = StateAwaitingStepApproval ∨
      v.state = StateReplanning) :
    (inboxItemsOf v).length = 1 := by
  rcases h with h | h | h <;>
    simp [inboxItemsOf, h, StateAwaitingPlanApproval, StateAwaitingStepApproval,
      StateReplanning, StateAwaitingCommand, StateBlocked, StateAwaitingInfo,
      StateCompleted]

theorem inboxItemsOf_command (v : Conversation)
    (h : v.state = StateAwaitingCommand ∨ v.state = StateBlocked) :
    inboxItemsOf v =
      match firstPendingCommandStep v.steps with
      | some s =>
        [{ sessionID := v.sessionID, state := v.state,
           awaitingReason := v.awaitingReason, prompt := v.prompt,
           completedMessage := v.completedMessage, completedAt := v.completedAt,
           stepID := s.id, stepTitle := s.title,
           pendingCommand := s.pendingCommand, pendingInfo := "",
           pendingDependency := "" }]
      | none => [] := by
  rcases h with h | h <;>
    simp [inboxItemsOf, h, StateAwaitingPlanApproval, StateAwaitingCommand,
      StateBlocked]

theorem inboxItemsOf_info (v : Conversation)
    (h : v.state = StateAwaitingInfo) :
    inboxItemsOf v =
      match firstPendingInfoStep v.steps with
      | some s =>
        [{ sessionID := v.sessionID, state := v.state,
           awaitingReason := v.awaitingReason, prompt := v.prompt,
           completedMessage := v.completedMessage, completedAt := v.completedAt,
           stepID := s.id, stepTitle := s.title, pendingCommand := "",
           pendingInfo := s.pendingInfo,
           pendingDependency := s.pendingDependency }]
      | none => [] := by
  simp [inboxItemsOf, h, StateAwaitingPlanApproval, StateAwaitingCommand,
    StateBlocked, StateAwaitingInfo]

/-- C4 (amended): `list_inbox` emits at most one item per stored
conversation; for a conversation fetched from the store (hence seen
through `cloneConversation`) it emits exactly one item when the state
is `awaiting_plan_approval`, `awaiting_step_approval` or `replanning`;
for `awaiting_command` and `blocked` it emits one item if and only if
some step carries a non-empty `pending_command` (the item then carries
the first such step's id/title/pending_command) — a blocked
conversation with no pending command is silently dropped; for
`awaiting_info` it emits one item if and only if some step carries
`pending_info` or `pending_dependency` (the item carries the first such
step's id/title and both fields); every emitted item carries the
conversation's session id, state and awaiting reason. -/
theorem c4_inbox_amended (c : Conversation) :
    (inboxItemsOf (cloneConversation c)).length ≤ 1 ∧
    ((c.state = StateAwaitingPlanApproval ∨ c.state = StateAwaitingStepApproval ∨
        c.state = StateReplanning) →
      (inboxItemsOf (cloneConversation c)).length = 1) ∧
    ((c.state = StateAwaitingCommand ∨ c.state = StateBlocked) →
      ((inboxItemsOf (cloneConversation c)).length = 1 ↔
        ∃ s ∈ c.steps, s.pendingCommand ≠ "") ∧
      ∀ it ∈ inboxItemsOf (cloneConversation c), ∃ s,
        firstPendingCommandStep c.steps = some s ∧
        it.stepID = s.id ∧ it.stepTitle = s.title ∧
        it.pendingCommand = s.pendingCommand) ∧
    (c.state = StateAwaitingInfo →
      ((inboxItemsOf (cloneConversation c)).length = 1 ↔
        ∃ s ∈ c.steps, s.pendingInfo ≠ "" ∨ s.pendingDependency ≠ "") ∧
      ∀ it ∈ inboxItemsOf (cloneConversation c), ∃ s,
        firstPendingInfoStep c.steps = some s ∧
        it.stepID = s.id ∧ it.stepTitle = s.title ∧
        it.pendingInfo = s.pendingInfo ∧
        it.pendingDependency = s.pendingDependency) ∧
    (∀ it ∈ inboxItemsOf (cloneConversation c),
      it.sessionID = c.sessionID ∧ it.state = c.state ∧
      it.awaitingReason = c.awaitingReason) := by
  have hst : (cloneConversation c).state = c.state := rfl
  have hsp : (cloneConversation c).steps = c.steps := rfl
  refine ⟨inboxItemsOf_length_le _, ?_, ?_, ?_, ?_⟩
  · intro h
    exact inboxItemsOf_direct _ (by rw [hst]; exact h)
  · intro h
    have hchar := inboxItemsOf_command (cloneConversation c) (by rw [hst]; exact h)
    rw [hsp] at hchar
    constructor
    · rw [← firstPendingCommandStep_isSome_iff]
      rcases hm : firstPendingCommandStep c.steps with _ | s <;>
        rw [hm] at hchar <;> simp [hchar]
    · intro it hit
      rcases hm : firstPendingCommandStep c.steps with _ | s <;>
        rw [hm] at hchar <;> rw [hchar] at hit
      · simp at hit
      · simp only [List.mem_singleton] at hit
        subst hit
        exact ⟨s, rfl, rfl, rfl, rfl⟩
  · intro h
    have hchar := inboxItemsOf_info (cloneConversation c) (by rw [hst]; exact h)
    rw [hsp] at hchar
    constructor
    · rw [← firstPendingInfoStep_isSome_iff]
      rcases hm : firstPendingInfoStep c.steps with _ | s <;>
        rw [hm] at hchar <;> simp [hchar]
    · intro it hit
      rcases hm : firstPendingInfoStep c.steps with _ | s <;>
        rw [hm] at hchar <;> rw [hchar] at hit
      · simp at hit
      · simp only [List.mem_singleton] at hit
        subst hit
        exact ⟨s, rfl, rfl, rfl, rfl, rfl⟩
  · intro it hit
    exact inboxItemsOf_base (cloneConversation c) it hit

def c4Wit : Conversation :=
  { emptyConversation with
    sessionID := "w4", state := StateAwaitingCommand,
    awaitingReason := "Awaiting approval to run: ls",
    steps := [{ mkStep 1 "a" with pendingCommand := "ls", status := StepBlocked }] }

/-- Witness for C4's amended projection on a concrete awaiting-command
conversation: exactly one item, carrying the step's command. -/
theorem c4_inbox_witness :
    (inboxItemsOf (cloneConversation c4Wit)).length = 1 ∧
    ∀ it ∈ inboxItemsOf (cloneConversation c4Wit), ∃ s,
      firstPendingCommandStep c4Wit.steps = some s ∧
      it.stepID = s.id ∧ it.stepTitle = s.title ∧
      it.pendingCommand = s.pendingCommand := by
  have h := c4_inbox_amended c4Wit
  have hcmd := h.2.2.1 (Or.inl (by decide))
  refine ⟨hcmd.1.mpr ?_, hcmd.2⟩
  exact ⟨{ mkStep 1 "a" with pendingCommand := "ls", status := StepBlocked },
    by decide, by decide⟩

/-! ## C6: replan postcondition and plan-version monotonicity -/

theorem saveRet_ok {st st' : St} {c c' : Conversation}
    (h : saveRet st c = (st', .ok c')) : c' = c := by
  unfold saveRet at h
  split at h
  · simp at h
  · simp only [Prod.mk.injEq, Except.ok.injEq] at h
    exact h.2.symm

theorem resolveBlock_ok_spec {st st' : St} {conv c' : Conversation}
    {reason title : String}
    (h : resolveBlock st conv reason title = (st', .ok c')) :
    c'.planVersion = conv.planVersion + 1 ∧
    c'.state = StateAwaitingPlanApproval ∧
    c'.awaitingReason = "Awaiting plan approval after block" ∧
    ∃ r rest, st.script = r :: rest ∧ r.ok = true ∧
      c'.planText = r.reply ∧
      c'.steps = (parsePlanAndCriteria r.reply).1 ∧
      c'.acceptanceCriteria = (parsePlanAndCriteria r.reply).2 := by
  rcases hs : st.script with _ | ⟨r, rest⟩ <;>
    simp only [resolveBlock, sendModel, hs] at h
  · simp at h
  · by_cases hok : r.ok = true
    · simp only [hok, not_true_eq_false, if_false, reduceIte] at h
      split at h
      · simp at h
      · simp only [Prod.mk.injEq, Except.ok.injEq] at h
        rcases h with ⟨_, hc⟩
        subst hc
        exact ⟨rfl, rfl, rfl, r, rest, rfl, hok, rfl, rfl, rfl⟩
    · simp only [Bool.not_eq_true] at hok
      simp [hok] at h

theorem completeConversation_ok {st st' : St} {conv c' : Conversation}
    (h : completeConversation st conv = (st', .ok c')) :
    c'.planVersion = conv.planVersion ∧ c'.state = StateCompleted := by
  simp only [completeConversation] at h
  have hc := saveRet_ok h
  subst hc
  exact ⟨rfl, rfl⟩

theorem verifyAcceptance_ok_mono {st st' : St} {conv c' : Conversation}
    (h : verifyAcceptance st conv = (st', .ok c')) :
    conv.planVersion ≤ c'.planVersion := by
  rcases hs : st.script with _ | ⟨r, rest⟩ <;>
    simp only [verifyAcceptance, sendModel, hs] at h
  · simp at h
  · by_cases hok : r.ok = true
    · simp only [hok, not_true_eq_false, if_false, reduceIte] at h
      split at h
      · have hc := saveRet_ok h
        subst hc
        exact le_refl _
      · split at h
        · simp at h
        · split at h
          · simp at h
          · rename_i st2 hsv st3 c2 hrb
            simp only [Prod.mk.injEq, Except.ok.injEq] at h
            rcases h with ⟨_, hc⟩
            subst hc
            have hpv := (resolveBlock_ok_spec hrb).1
            simp only at hpv
            omega
    · simp only [Bool.not_eq_true] at hok
      simp [hok] at h

theorem advancePost_ok_mono {st st' : St} {conv c' : Conversation}
    (h : advancePost st conv = (st', .ok c')) :
    conv.planVersion ≤ c'.planVersion := by
  simp only [advancePost] at h
  split at h
  · exact le_of_eq (completeConversation_ok h).1.symm
  · split at h
    · simp at h
    · exact verifyAcceptance_ok_mono h


theorem saveRet_snd_ok {st : St} {c c' : Conversation}
    (h : (saveRet st c).2 = .ok c') : c' = c := by
  unfold saveRet at h
  split at h
  · simp at h
  · simp only [Except.ok.injEq] at h
    exact h.symm

theorem cmdBranch_halt_ok {st : St} {conv : Conversation} {i : Nat} {stp : Step}
    {ev : Event} {reply : String} {st' : St} {c' : Conversation}
    (h : cmdBranch st conv i stp ev reply = .halt st' (.ok c')) :
    c'.planVersion = conv.planVersion := by
  simp only [cmdBranch, StepOut.halt.injEq] at h
  have hc := saveRet_snd_ok h.2
  subst hc
  rfl

theorem needBranch_halt_ok {st : St} {conv : Conversation} {i : Nat} {stp : Step}
    {ev : Event} {reply : String} {st' : St} {c' : Conversation}
    (h : needBranch st conv i stp ev reply = .halt st' (.ok c')) :
    c'.planVersion = conv.planVersion := by
  simp only [needBranch] at h
  split at h <;>
  · simp only [StepOut.halt.injEq] at h
    have hc := saveRet_snd_ok h.2
    subst hc
    rfl

theorem depBranch_halt_ok {st : St} {conv : Conversation} {i : Nat} {stp : Step}
    {ev : Event} {reply : String} {st' : St} {c' : Conversation}
    (h : depBranch st conv i stp ev reply = .halt st' (.ok c')) :
    c'.planVersion = conv.planVersion := by
  simp only [depBranch] at h
  split at h <;>
  · simp only [StepOut.halt.injEq] at h
    have hc := saveRet_snd_ok h.2
    subst hc
    rfl

theorem blockedBranch_halt_ok {st : St} {conv : Conversation} {i : Nat}
    {stp : Step} {ev : Event} {r : MReply} {st' : St} {c' : Conversation}
    (h : blockedBranch st conv i stp ev r = .halt st' (.ok c')) :
    c'.planVersion = conv.planVersion + 1 := by
  simp only [blockedBranch] at h
  split at h
  · simp at h
  · split at h
    · simp at h
    · rename_i hrb
      simp only [StepOut.halt.injEq, Except.ok.injEq] at h
      rcases h with ⟨_, hc⟩
      subst hc
      have hpv := (resolveBlock_ok_spec hrb).1
      simpa using hpv

theorem successBranch_halt_ok {st : St} {conv : Conversation} {i : Nat}
    {stp : Step} {ev : Event} {st' : St} {c' : Conversation}
    (h : successBranch st conv i stp ev = .halt st' (.ok c')) : False := by
  simp only [successBranch] at h
  split at h <;> simp at h

theorem successBranch_next {st : St} {conv : Conversation} {i : Nat}
    {stp : Step} {ev : Event} {st' : St} {conv' : Conversation}
    (h : successBranch st conv i stp ev = .next st' conv') :
    conv'.planVersion = conv.planVersion := by
  simp only [successBranch] at h
  split at h
  · simp at h
  · simp only [StepOut.next.injEq] at h
    rcases h with ⟨_, hc⟩
    subst hc
    rfl

theorem advanceStep_halt_ok_mono {st : St} {conv : Conversation} {i : Nat}
    {stp : Step} {st' : St} {c' : Conversation}
    (h : advanceStep st conv i stp = .halt st' (.ok c')) :
    conv.planVersion ≤ c'.planVersion := by
  simp only [advanceStep] at h
  split at h
  · have := cmdBranch_halt_ok h
    simp only at this
    omega
  · split at h
    · have := needBranch_halt_ok h
      simp only at this
      omega
    · split at h
      · have := depBranch_halt_ok h
        simp only at this
        omega
      · split at h
        · have := blockedBranch_halt_ok h
          simp only at this
          omega
        · exact absurd h successBranch_halt_ok

theorem advanceStep_next_planVersion {st : St} {conv : Conversation} {i : Nat}
    {stp : Step} {st' : St} {conv' : Conversation}
    (h : advanceStep st conv i stp = .next st' conv') :
    conv'.planVersion = conv.planVersion := by
  simp only [advanceStep] at h
  split at h
  · simp only [cmdBranch, StepOut.halt.injEq] at h
    exact absurd h (by simp [cmdBranch])
  · split at h
    · simp only [needBranch] at h
      split at h <;> simp at h
    · split at h
      · simp only [depBranch] at h
        split at h <;> simp at h
      · split at h
        · simp only [blockedBranch] at h
          split at h
          · simp at h
          · split at h <;> simp at h
        · have := successBranch_next h
          simpa using this

theorem advanceLoop_ok_mono :
    ∀ (fuel : Nat) (st : St) (conv : Conversation) (i : Nat) (st' : St)
      (c' : Conversation),
      advanceLoop st conv i fuel = (st', .ok c') →
      conv.planVersion ≤ c'.planVersion := by
  intro fuel
  induction fuel with
  | zero =>
    intro st conv i st' c' h
    exact advancePost_ok_mono h
  | succ fuel ih =>
    intro st conv i st' c' h
    simp only [advanceLoop] at h
    split at h
    · exact advancePost_ok_mono h
    · rename_i stp hstp
      split at h
      · exact ih _ _ _ _ _ h
      · split at h
        · have hc := saveRet_ok h
          subst hc
          simp
        · split at h
          · rename_i st2 res heq
            simp only [Prod.mk.injEq] at h
            rcases h with ⟨h1, h2⟩
            subst h2
            exact advanceStep_halt_ok_mono heq
          · rename_i st2 conv2 heq
            have h2 := advanceStep_next_planVersion heq
            have h3 := ih _ _ _ _ _ h
            omega

theorem approveCommand_ok_mono {st : St} {sid stepID : String} {sh : ShellRes}
    {conv : Conversation} {st' : St} {c' : Conversation}
    (hget : storeGet st.store sid = some conv)
    (h : approveCommand st sid stepID sh = (st', .ok c')) :
    conv.planVersion ≤ c'.planVersion := by
  simp only [approveCommand, hget] at h
  split at h
  · simp at h
  · rename_i i hfind
    split at h
    · simp at h
    · rename_i stp hstp
      split at h
      · simp at h
      · split at h
        · simp only [Prod.mk.injEq, Except.ok.injEq] at h
          rcases h with ⟨_, hc⟩
          subst hc
          simp
        · split at h
          · simp at h
          · have hadv := advanceLoop_ok_mono _ _ _ _ _ _
              (by simpa [advanceExecution] using h)
            simp only at hadv
            omega

/-- C6: whenever the unblock sub-protocol `resolveBlock` succeeds, the
plan version is incremented by exactly one while `plan_text`, `steps`
and `acceptance_criteria` are all replaced together from the new
planning reply (the head of the model script) and the state returns to
`awaiting_plan_approval`; moreover the plan version never decreases
across the orchestration entry points: a successful `advanceExecution`
(which hosts every replan) and a successful `approveCommand` both
return a conversation whose `plan_version` is at least the one they
started from. -/
theorem c6_replan_postcondition :
    (∀ (st st' : St) (conv c' : Conversation) (reason title : String),
      resolveBlock st conv reason title = (st', .ok c') →
      c'.planVersion = conv.planVersion + 1 ∧
      c'.state = StateAwaitingPlanApproval ∧
      c'.awaitingReason = "Awaiting plan approval after block" ∧
      ∃ r rest, st.script = r :: rest ∧ r.ok = true ∧
        c'.planText = r.reply ∧
        c'.steps = (parsePlanAndCriteria r.reply).1 ∧
        c'.acceptanceCriteria = (parsePlanAndCriteria r.reply).2) ∧
    (∀ (st st' : St) (conv c' : Conversation),
      advanceExecution st conv = (st', .ok c') →
      conv.planVersion ≤ c'.planVersion) ∧
    (∀ (st st' : St) (sid stepID : String) (sh : ShellRes) (conv c' : Conversation),
      storeGet st.store sid = some conv →
      approveCommand st sid stepID sh = (st', .ok c') →
      conv.planVersion ≤ c'.planVersion) := by
  refine ⟨?_, ?_, ?_⟩
  · intro st st' conv c' reason title h
    exact resolveBlock_ok_spec h
  · intro st st' conv c' h
    exact advanceLoop_ok_mono _ _ _ _ _ _ (by simpa [advanceExecution] using h)
  · intro st st' sid stepID sh conv c' hget h
    exact approveCommand_ok_mono hget h

def c6Conv : Conversation :=
  { emptyConversation with
    sessionID := "s6", prompt := "goal", state := StateReplanning,
    planVersion := 1, planText := "old plan",
    awaitingReason := "Execution blocked: boom" }

def c6St : St :=
  { script := [{ reply := "1) fix\nACCEPT: works", raw := "raw",
                 session := "s6", errMsg := "", dur := 3, ok := true }],
    clock := 1, events := [], store := [] }

/-- Witness for C6 on a concrete successful replan: the plan version
goes from 1 to 2 and the state returns to `awaiting_plan_approval`. -/
theorem c6_replan_witness :
    ((okOf (resolveBlock c6St c6Conv "boom" "step-1").2).getD
        emptyConversation).planVersion = c6Conv.planVersion + 1 ∧
    ((okOf (resolveBlock c6St c6Conv "boom" "step-1").2).getD
        emptyConversation).state = StateAwaitingPlanApproval := by
  have hEq : resolveBlock c6St c6Conv "boom" "step-1" =
      ((resolveBlock c6St c6Conv "boom" "step-1").1,
        .ok ((okOf (resolveBlock c6St c6Conv "boom" "step-1").2).getD
          emptyConversation)) := by rfl
  have h := c6_replan_postcondition.1 _ _ _ _ _ _ hEq
  exact ⟨h.1, h.2.1⟩

/-! ## C9: approve_command preconditions -/

/-- C9 (amended): `ApproveCommand` checks no conversation-state
precondition.  It fails with the dedicated validation errors when the
conversation is unknown, the step id is absent, or the step has no
pending command; and whenever those three checks pass — whatever the
conversation's state, including `completed` or `executing` — the
pending command is executed (here under a failing shell, which shows
the `EXEC:` marker and the output recorded on the step, and the call
returning without error).  The converse of the claim's "iff" is false:
after a successful shell run, the follow-up advance can itself return
an error (see the counterexample), so an error return does not imply
one of the three precondition failures. -/
theorem c9_approve_command_preconditions :
    (∀ (st : St) (sid stepID : String) (sh : ShellRes),
      storeGet st.store sid = none →
      approveCommand st sid stepID sh =
        (st, .error ("conversation " ++ sid ++ " not found"))) ∧
    (∀ (st : St) (sid stepID : String) (sh : ShellRes) (conv : Conversation),
      storeGet st.store sid = some conv →
      findStepIdx conv.steps stepID 0 = none →
      approveCommand st sid stepID sh =
        (st, .error ("step " ++ stepID ++ " not found"))) ∧
    (∀ (st : St) (sid stepID : String) (sh : ShellRes) (conv : Conversation)
      (i : Nat) (stp : Step),
      storeGet st.store sid = some conv →
      findStepIdx conv.steps stepID 0 = some i →
      conv.steps.get? i = some stp →
      stp.pendingCommand = "" →
      approveCommand st sid stepID sh =
        (st, .error ("no pending command for step " ++ stepID))) ∧
    (∀ (st : St) (sid stepID : String) (conv : Conversation) (i : Nat)
      (stp : Step) (sh : ShellRes) (em : String),
      storeGet st.store sid = some conv →
      findStepIdx conv.steps stepID 0 = some i →
      conv.steps.get? i = some stp →
      ¬ stp.pendingCommand = "" →
      sh.errMsg = some em →
      ∃ st' c', approveCommand st sid stepID sh = (st', .ok c') ∧
        c'.steps.get? i = some { stp with
          status := StepBlocked,
          pendingCommand := "",
          logs := stp.logs ++ ["EXEC: " ++ stp.pendingCommand, sh.output] }) := by
  refine ⟨?_, ?_, ?_, ?_⟩
  · intro st sid stepID sh hget
    simp only [approveCommand, hget]
  · intro st sid stepID sh conv hget hfind
    simp only [approveCommand, hget, hfind]
  · intro st sid stepID sh conv i stp hget hfind hstep hpend
    simp only [approveCommand, hget, hfind, hstep, if_pos hpend]
  · intro st sid stepID conv i stp sh em hget hfind hstep hpend hsh
    have hi : i < conv.steps.length := by
      rcases List.get?_eq_some.mp hstep with ⟨hlt, _⟩
      exact hlt
    simp only [approveCommand, hget, hfind, hstep, if_neg hpend, hsh]
    refine ⟨_, _, rfl, ?_⟩
    simp [List.set_set, List.get?_eq_getElem?, hi]

def c9WitConv : Conversation :=
  { emptyConversation with
    sessionID := "w9", state := StateCompleted,
    steps := [{ mkStep 1 "a" with pendingCommand := "rm -rf tmp" }] }

def c9WitSt : St :=
  { script := [], clock := 1, events := [], store := [("w9", c9WitConv)] }

/-- Witness for C9: even on a `completed` conversation the pending
command runs (failing shell case: the `EXEC:` marker is logged and the
call returns without error). -/
theorem c9_approve_command_witness :
    ∃ st' c', approveCommand c9WitSt "w9" "step-1"
        { output := "denied", errMsg := some "exit status 1" } = (st', .ok c') ∧
      c'.steps.get? 0 = some { { mkStep 1 "a" with pendingCommand := "rm -rf tmp" } with
        status := StepBlocked,
        pendingCommand := "",
        logs := ["EXEC: " ++ "rm -rf tmp", "denied"] } :=
  c9_approve_command_preconditions.2.2.2 c9WitSt "w9" "step-1"
    (cloneConversation c9WitConv) 0
    { mkStep 1 "a" with pendingCommand := "rm -rf tmp" }
    { output := "denied", errMsg := some "exit status 1" } "exit status 1"
    (by decide) (by decide) (by decide) (by decide) rfl

/-! ## C5: the NEED discovery sub-protocol -/

/-- A reply whose trimmed upper-cased text begins with `NEED:` cannot
also begin with `COMMAND:`. -/
theorem need_not_command {u : String}
    (h : hasPrefixGo u "NEED:" = true) : hasPrefixGo u "COMMAND:" = false := by
  rcases u with ⟨data⟩
  cases data with
  | nil => simp [hasPrefixGo, List.isPrefixOf] at h
  | cons c cs =>
    simp only [hasPrefixGo] at h ⊢
    simp only [List.isPrefixOf, Bool.and_eq_true, beq_iff_eq] at h
    rcases h with ⟨hc, _⟩
    subst hc
    simp [List.isPrefixOf]

/-- Full characterization of `proposeDiscoveryCommand` when the script
has a head reply: the auxiliary model-call record is always produced,
and a command comes back exactly when the call succeeded, the trimmed
reply begins with `COMMAND:`, and the trimmed payload is non-empty. -/
theorem proposeDiscoveryCommand_spec (st : St) (conv : Conversation)
    (need kind : String) (r2 : MReply) (rest : List MReply)
    (hscript : st.script = r2 :: rest) :
    proposeDiscoveryCommand st conv need kind =
      ({ st with script := rest, clock := st.clock + 1 },
        (if r2.ok = true ∧
            hasPrefixGo (toUpperGo (trimGo r2.reply)) "COMMAND:" = true ∧
            ¬ trimGo (dropStr r2.reply 8) = ""
          then trimGo (dropStr r2.reply 8) else ""),
        { prompt := discoveryPromptOf conv need kind, rawOutput := r2.raw,
          reply := r2.reply, timestamp := st.clock, durationMS := r2.dur,
          sessionID := r2.session }) := by
  by_cases hok : r2.ok = true
  · by_cases hpre : hasPrefixGo (toUpperGo (trimGo r2.reply)) "COMMAND:" = true
    · by_cases hc : trimGo (dropStr r2.reply 8) = ""
      · simp [proposeDiscoveryCommand, sendModel, hscript, tick, hok, hpre, hc]
      · simp [proposeDiscoveryCommand, sendModel, hscript, tick, hok, hpre, hc]
    · simp only [Bool.not_eq_true] at hpre
      simp [proposeDiscoveryCommand, sendModel, hscript, tick, hok, hpre]
  · simp only [Bool.not_eq_true] at hok
    simp [proposeDiscoveryCommand, sendModel, hscript, tick, hok]

theorem needBranch_spec (st : St) (conv : Conversation) (i : Nat) (stp : Step)
    (ev : Event) (reply : String) (r2 : MReply) (rest : List MReply)
    (hscript : st.script = r2 :: rest)
    (hsess : ¬ conv.sessionID = "") :
    ∃ st' c', needBranch st conv i stp ev reply = .halt st' (.ok c') ∧
      c'.modelCalls = conv.modelCalls ++
        [{ prompt := discoveryPromptOf conv (trimGo (dropStr reply 5)) "info",
           rawOutput := r2.raw, reply := r2.reply, timestamp := st.clock,
           durationMS := r2.dur, sessionID := r2.session }] ∧
      c'.sessionID = conv.sessionID ∧
      ((r2.ok = true ∧
          hasPrefixGo (toUpperGo (trimGo r2.reply)) "COMMAND:" = true ∧
          ¬ trimGo (dropStr r2.reply 8) = "") →
        c'.state = StateAwaitingCommand ∧
        c'.awaitingReason =
          "Awaiting approval to gather info: " ++ trimGo (dropStr reply 5) ∧
        c'.steps = conv.steps.set i { stp with
          pendingCommand := trimGo (dropStr r2.reply 8),
          status := StepBlocked }) ∧
      (¬ (r2.ok = true ∧
          hasPrefixGo (toUpperGo (trimGo r2.reply)) "COMMAND:" = true ∧
          ¬ trimGo (dropStr r2.reply 8) = "") →
        c'.state = StateAwaitingInfo ∧
        c'.awaitingReason = "Needs info: " ++ trimGo (dropStr reply 5) ∧
        c'.steps = conv.steps.set i { stp with
          pendingInfo := trimGo (dropStr reply 5),
          status := StepBlocked }) := by
  simp only [needBranch,
    proposeDiscoveryCommand_spec st conv (trimGo (dropStr reply 5)) "info" r2
      rest hscript]
  by_cases hA : r2.ok = true ∧
      hasPrefixGo (toUpperGo (trimGo r2.reply)) "COMMAND:" = true ∧
      ¬ trimGo (dropStr r2.reply 8) = ""
  · rw [if_pos hA]
    rw [if_pos hA.2.2]
    simp only [saveRet, stSave, storeSave]
    rw [if_neg hsess]
    refine ⟨_, _, rfl, by simp, rfl, fun _ => ⟨rfl, rfl, rfl⟩,
      fun hnA => absurd hA hnA⟩
  · rw [if_neg hA]
    simp only [ne_eq, not_true_eq_false, if_false, reduceIte]
    simp only [saveRet, stSave, storeSave]
    rw [if_neg hsess]
    refine ⟨_, _, rfl, by simp, rfl, fun hA2 => absurd hA2 hA,
      fun _ => ⟨rfl, rfl, rfl⟩⟩

theorem advanceLoop_skip :
    ∀ (k : Nat) (st : St) (conv : Conversation) (i fuel : Nat),
      (∀ j, j < k → ∃ s, conv.steps.get? (i + j) = some s ∧ s.status = StepDone) →
      advanceLoop st conv i (k + fuel) = advanceLoop st conv (i + k) fuel := by
  intro k
  induction k with
  | zero =>
    intro st conv i fuel _
    simp
  | succ k ih =>
    intro st conv i fuel h
    obtain ⟨s, hs, hdone⟩ := h 0 (by omega)
    rw [show k + 1 + fuel = (k + fuel) + 1 by omega]
    rw [show (advanceLoop st conv i (k + fuel + 1)) =
        (match conv.steps.get? i with
          | none => advancePost st conv
          | some stp =>
            if stp.status = StepDone then advanceLoop st conv (i + 1) (k + fuel)
            else if stp.requiresApproval then
              saveRet st { conv with
                state := StateAwaitingStepApproval,
                awaitingReason := "Awaiting manual approval for step " ++ stp.title }
            else
              match advanceStep st conv i stp with
              | .halt st' res => (st', res)
              | .next st' conv' => advanceLoop st' conv' (i + 1) (k + fuel))
      from rfl]
    rw [show conv.steps.get? i = some s by simpa using hs]
    simp only [hdone, if_true, reduceIte]
    rw [ih st conv (i + 1) fuel
      (fun j hj => by
        have hh := h (j + 1) (by omega)
        simpa [Nat.add_assoc, Nat.add_comm 1 j] using hh)]
    congr 1
    omega

/-- C5 (amended): when the execution reply for the first unfinished
step begins with `NEED:`, the orchestrator issues exactly one auxiliary
`propose_command` model call and appends its record to `model_calls`
regardless of outcome (the ledger grows by exactly two entries: the
execution call, then the auxiliary call, which is last); if the
auxiliary call succeeded, its trimmed reply begins case-insensitively
with `COMMAND:`, and the trimmed payload after the 8-character prefix
is non-empty, the conversation transitions to `awaiting_command` with
the step's `pending_command` set to that payload; otherwise (auxiliary
error, non-`COMMAND:` reply, or empty payload — the last refuting the
claim as stated) the step's `pending_info` is set to the `NEED:`
payload and the conversation transitions to `awaiting_info`. -/
theorem c5_need_discovery_amended
    (st : St) (conv : Conversation) (pre post : List Step) (stp : Step)
    (r1 r2 : MReply) (rest : List MReply)
    (hsteps : conv.steps = pre ++ stp :: post)
    (hpre : ∀ s ∈ pre, s.status = StepDone)
    (hstp1 : ¬ stp.status = StepDone)
    (hstp2 : stp.requiresApproval = false)
    (hscript : st.script = r1 :: r2 :: rest)
    (hneed : hasPrefixGo (toUpperGo (trimGo r1.reply)) "NEED:" = true)
    (hsess : ¬ r1.session = "") :
    ∃ st' c', advanceExecution st conv = (st', .ok c') ∧
      c'.modelCalls.length = conv.modelCalls.length + 2 ∧
      c'.modelCalls.getLast?.map (fun m => (m.reply, m.rawOutput, m.sessionID)) =
        some (r2.reply, r2.raw, r2.session) ∧
      c'.sessionID = r1.session ∧
      ((r2.ok = true ∧
          hasPrefixGo (toUpperGo (trimGo r2.reply)) "COMMAND:" = true ∧
          ¬ trimGo (dropStr r2.reply 8) = "") →
        c'.state = StateAwaitingCommand ∧
        c'.awaitingReason =
          "Awaiting approval to gather info: " ++ trimGo (dropStr r1.reply 5) ∧
        (c'.steps.get? pre.length).map (fun s => (s.pendingCommand, s.status)) =
          some (trimGo (dropStr r2.reply 8), StepBlocked)) ∧
      (¬ (r2.ok = true ∧
          hasPrefixGo (toUpperGo (trimGo r2.reply)) "COMMAND:" = true ∧
          ¬ trimGo (dropStr r2.reply 8) = "") →
        c'.state = StateAwaitingInfo ∧
        c'.awaitingReason = "Needs info: " ++ trimGo (dropStr r1.reply 5) ∧
        (c'.steps.get? pre.length).map (fun s => (s.pendingInfo, s.status)) =
          some (trimGo (dropStr r1.reply 5), StepBlocked)) := by
  have hcmd := need_not_command hneed
  have hlen : conv.steps.length = pre.length + (post.length + 1) := by
    simp [hsteps]
  have hi : pre.length < conv.steps.length := by omega
  have hget : conv.steps.get? pre.length = some stp := by
    rw [hsteps, List.get?_append_right (le_refl pre.length)]
    simp
  have hskip := advanceLoop_skip pre.length st conv 0 (post.length + 1)
    (fun j hj => by
      have hj2 : conv.steps.get? (0 + j) = some (pre.get ⟨j, hj⟩) := by
        rw [hsteps, Nat.zero_add, List.get?_append hj]
        exact List.get?_eq_get hj
      exact ⟨pre.get ⟨j, hj⟩, hj2, hpre _ (pre.get_mem j hj)⟩)
  rw [show advanceExecution st conv = advanceLoop st conv 0 conv.steps.length
    from rfl, hlen, hskip, Nat.zero_add]
  rw [show (advanceLoop st conv pre.length (post.length + 1)) =
      (match conv.steps.get? pre.length with
        | none => advancePost st conv
        | some stp =>
          if stp.status = StepDone then
            advanceLoop st conv (pre.length + 1) post.length
          else if stp.requiresApproval then
            saveRet st { conv with
              state := StateAwaitingStepApproval,
              awaitingReason := "Awaiting manual approval for step " ++ stp.title }
          else
            match advanceStep st conv pre.length stp with
            | .halt st' res => (st', res)
            | .next st' conv' => advanceLoop st' conv' (pre.length + 1) post.length)
    from rfl]
  rw [hget]
  simp only [hstp1, hstp2, if_false, reduceIte, Bool.false_eq_true]
  by_cases hok : r2.ok = true
  · by_cases hpre2 : hasPrefixGo (toUpperGo (trimGo r2.reply)) "COMMAND:" = true
    · by_cases hemp : trimGo (dropStr r2.reply 8) = ""
      · simp only [advanceStep, needBranch, proposeDiscoveryCommand, sendModel,
          tick, emitEv, saveRet, stSave, storeSave, hscript, hcmd, hneed, hok,
          hpre2, hemp, hsess, Bool.false_eq_true, not_true_eq_false,
          not_false_eq_true, if_false, if_true, reduceIte, ne_eq]
        refine ⟨_, _, rfl, ?_, ?_, ?_, ?_, ?_⟩
        · simp
        · simp
        · simp
        · intro hA
          simp at hA
        · intro _
          simp [List.set_set, List.get?_eq_getElem?, hi]
      · simp only [advanceStep, needBranch, proposeDiscoveryCommand, sendModel,
          tick, emitEv, saveRet, stSave, storeSave, hscript, hcmd, hneed, hok,
          hpre2, hemp, hsess, Bool.false_eq_true, not_true_eq_false,
          not_false_eq_true, if_false, if_true, reduceIte, ne_eq]
        refine ⟨_, _, rfl, ?_, ?_, ?_, ?_, ?_⟩
        · simp
        · simp
        · simp
        · intro _
          simp [List.set_set, List.get?_eq_getElem?, hi]
        · intro hnA
          simp at hnA
    · simp only [advanceStep, needBranch, proposeDiscoveryCommand, sendModel,
        tick, emitEv, saveRet, stSave, storeSave, hscript, hcmd, hneed, hok,
        hpre2, hsess, Bool.false_eq_true, not_true_eq_false,
        not_false_eq_true, if_false, if_true, reduceIte, ne_eq]
      refine ⟨_, _, rfl, ?_, ?_, ?_, ?_, ?_⟩
      · simp
      · simp
      · simp
      · intro hA
        simp at hA
      · intro _
        simp [List.set_set, List.get?_eq_getElem?, hi]
  · simp only [advanceStep, needBranch, proposeDiscoveryCommand, sendModel,
      tick, emitEv, saveRet, stSave, storeSave, hscript, hcmd, hneed, hok,
      hsess, Bool.false_eq_true, not_true_eq_false, not_false_eq_true,
      if_false, if_true, reduceIte, ne_eq]
    refine ⟨_, _, rfl, ?_, ?_, ?_, ?_, ?_⟩
    · simp
    · simp
    · simp
    · intro hA
      simp at hA
    · intro _
      simp [List.set_set, List.get?_eq_getElem?, hi]

def c5WitR1 : MReply :=
  { reply := "NEED: Which OS?", raw := "r1", session := "sess-1", errMsg := "",
    dur := 1, ok := true }

def c5WitR2 : MReply :=
  { reply := "COMMAND: echo detecting", raw := "r2", session := "sess-1",
    errMsg := "", dur := 1, ok := true }

def c5WitStp : Step := mkStep 1 "1) detect"

def c5WitConv : Conversation :=
  { emptyConversation with
    sessionID := "sess-1", prompt := "Check environment",
    state := StateExecuting, planVersion := 1, planText := "1) detect",
    steps := [c5WitStp] }

def c5WitSt : St :=
  { script := [c5WitR1, c5WitR2], clock := 1, events := [], store := [] }

/-- Witness for C5 on the seed scenario "NEED auto-escalates to a
discovery command": the auxiliary reply carries a real command, so the
conversation lands in `awaiting_command` with the proposed command
pending, and the ledger has grown by the execution call plus the
auxiliary call. -/
theorem c5_need_discovery_witness :
    ∃ st' c', advanceExecution c5WitSt c5WitConv = (st', .ok c') ∧
      c'.modelCalls.length = c5WitConv.modelCalls.length + 2 ∧
      c'.modelCalls.getLast?.map (fun m => (m.reply, m.rawOutput, m.sessionID)) =
        some (c5WitR2.reply, c5WitR2.raw, c5WitR2.session) ∧
      c'.sessionID = c5WitR1.session ∧
      ((c5WitR2.ok = true ∧
          hasPrefixGo (toUpperGo (trimGo c5WitR2.reply)) "COMMAND:" = true ∧
          ¬ trimGo (dropStr c5WitR2.reply 8) = "") →
        c'.state = StateAwaitingCommand ∧
        c'.awaitingReason =
          "Awaiting approval to gather info: " ++ trimGo (dropStr c5WitR1.reply 5) ∧
        (c'.steps.get? (List.length ([] : List Step))).map
            (fun s => (s.pendingCommand, s.status)) =
          some (trimGo (dropStr c5WitR2.reply 8), StepBlocked)) ∧
      (¬ (c5WitR2.ok = true ∧
          hasPrefixGo (toUpperGo (trimGo c5WitR2.reply)) "COMMAND:" = true ∧
          ¬ trimGo (dropStr c5WitR2.reply 8) = "") →
        c'.state = StateAwaitingInfo ∧
        c'.awaitingReason = "Needs info: " ++ trimGo (dropStr c5WitR1.reply 5) ∧
        (c'.steps.get? (List.length ([] : List Step))).map
            (fun s => (s.pendingInfo, s.status)) =
          some (trimGo (dropStr c5WitR1.reply 5), StepBlocked)) :=
  c5_need_discovery_amended c5WitSt c5WitConv [] [] c5WitStp c5WitR1 c5WitR2 []
    rfl (by simp) (by decide) (by decide) rfl (by decide) (by decide)
